import Mathlib

/-!
# Verification of the X-Road-scripts repository against its specification

This file shallowly embeds the parts of the `X-Road-scripts` repository
(python library `xrdinfo-src/xrdinfo/__init__.py`, its legacy copy
`xrdinfo/xrdinfo.py`, and the crawler `xrdinfo/xrd_all_wsdls.py`) that the
frozen claims are about, and proves or refutes each claim.

Python strings are modelled as lists of Unicode code points (`PyStr`),
bytes as lists of naturals below 256.  Python behaviour that the library
relies on (percent-encoding via `urllib.parse.quote`/`unquote`, UTF-8
encoding and decoding, `str.split`/`join`, `re.search` with the concrete
patterns used by the source, a subset of `xml.etree.ElementTree`, MD5) is
modelled executably below, next to the repository's own functions.
-/

set_option maxRecDepth 8000

/-- A Python string: a list of Unicode code points. -/
abbrev PyStr := List Nat

/-- Convert a Lean string literal into the `PyStr` code-point model
(used to write the repository's string constants readably). -/
def pys (s : String) : PyStr := s.toList.map Char.toNat

/-- A code point that a Python `str` obtained from well-formed text can
contain and that `str.encode('utf-8')` accepts: a Unicode scalar value
(below 0x110000 and not a surrogate). -/
def ValidChar (c : Nat) : Prop := c < 0x110000 ∧ ¬(0xD800 ≤ c ∧ c < 0xE000)

instance (c : Nat) : Decidable (ValidChar c) := by unfold ValidChar; infer_instance

/-! ## UTF-8 (model of `str.encode('utf-8')` / `bytes.decode('utf-8', errors='replace')`) -/

/-- UTF-8 encoding of one code point (model of CPython's encoder on
scalar values). -/
def utf8EncodeChar (c : Nat) : List Nat :=
  if c < 0x80 then [c]
  else if c < 0x800 then [0xC0 + c / 64, 0x80 + c % 64]
  else if c < 0x10000 then [0xE0 + c / 4096, 0x80 + (c / 64) % 64, 0x80 + c % 64]
  else [0xF0 + c / 0x40000, 0x80 + (c / 4096) % 64, 0x80 + (c / 64) % 64, 0x80 + c % 64]

/-- UTF-8 encoding of a string. -/
def utf8Encode (s : PyStr) : List Nat := s.flatMap utf8EncodeChar

/-- The replacement character U+FFFD produced by `errors='replace'`. -/
def replChar : Nat := 0xFFFD

/-- One step of UTF-8 decoding with replacement on errors: given the head
byte and the remaining bytes, return the decoded code point (or U+FFFD)
and the rest of the input.  On an invalid sequence the maximal valid
prefix of a sequence (at least the head byte) is consumed. -/
def utf8Step (b : Nat) (bs : List Nat) : Nat × List Nat :=
  if b < 0x80 then (b, bs)
  else if b < 0xC2 then (replChar, bs)
  else if b < 0xE0 then
    match bs with
    | [] => (replChar, [])
    | b1 :: bs1 =>
      if 0x80 ≤ b1 ∧ b1 < 0xC0 then ((b - 0xC0) * 64 + (b1 - 0x80), bs1)
      else (replChar, b1 :: bs1)
  else if b < 0xF0 then
    match bs with
    | [] => (replChar, [])
    | b1 :: bs1 =>
      if (0x80 ≤ b1 ∧ b1 < 0xC0) ∧ ¬(b = 0xE0 ∧ b1 < 0xA0) ∧ ¬(b = 0xED ∧ 0xA0 ≤ b1) then
        match bs1 with
        | [] => (replChar, [])
        | b2 :: bs2 =>
          if 0x80 ≤ b2 ∧ b2 < 0xC0 then
            ((b - 0xE0) * 4096 + (b1 - 0x80) * 64 + (b2 - 0x80), bs2)
          else (replChar, b2 :: bs2)
      else (replChar, b1 :: bs1)
  else if b < 0xF5 then
    match bs with
    | [] => (replChar, [])
    | b1 :: bs1 =>
      if (0x80 ≤ b1 ∧ b1 < 0xC0) ∧ ¬(b = 0xF0 ∧ b1 < 0x90) ∧ ¬(b = 0xF4 ∧ 0x90 ≤ b1) then
        match bs1 with
        | [] => (replChar, [])
        | b2 :: bs2 =>
          if 0x80 ≤ b2 ∧ b2 < 0xC0 then
            match bs2 with
            | [] => (replChar, [])
            | b3 :: bs3 =>
              if 0x80 ≤ b3 ∧ b3 < 0xC0 then
                ((b - 0xF0) * 0x40000 + (b1 - 0x80) * 4096 + (b2 - 0x80) * 64 + (b3 - 0x80), bs3)
              else (replChar, b3 :: bs3)
          else (replChar, b2 :: bs2)
      else (replChar, b1 :: bs1)
  else (replChar, bs)

theorem utf8Step_rest_length (b : Nat) (bs : List Nat) :
    (utf8Step b bs).2.length ≤ bs.length := by
  unfold utf8Step
  repeat' split
  all_goals simp_all
  all_goals omega

/-- UTF-8 decoding with replacement on errors (model of
`bytes.decode('utf-8', errors='replace')`). -/
def utf8Decode : List Nat → List Nat
  | [] => []
  | b :: bs => (utf8Step b bs).1 :: utf8Decode (utf8Step b bs).2
termination_by l => l.length
decreasing_by
  simp only [List.length_cons]
  exact Nat.lt_succ_of_le (utf8Step_rest_length _ _)

theorem utf8Decode_nil : utf8Decode [] = [] := by
  rw [utf8Decode.eq_def]

theorem utf8Decode_cons (b : Nat) (bs : List Nat) :
    utf8Decode (b :: bs) = (utf8Step b bs).1 :: utf8Decode (utf8Step b bs).2 := by
  rw [utf8Decode.eq_def]

theorem utf8Step_enc1 (c : Nat) (h : c < 0x80) (bs : List Nat) :
    utf8Step c bs = (c, bs) := by
  unfold utf8Step
  rw [if_pos h]

theorem utf8Step_enc2 (c : Nat) (h1 : 0x80 ≤ c) (h2 : c < 0x800) (bs : List Nat) :
    utf8Step (0xC0 + c / 64) ((0x80 + c % 64) :: bs) = (c, bs) := by
  have ha : ¬(0xC0 + c / 64 < 0x80) := by omega
  have hb : ¬(0xC0 + c / 64 < 0xC2) := by omega
  have hc' : 0xC0 + c / 64 < 0xE0 := by omega
  have hcont : 0x80 ≤ 0x80 + c % 64 ∧ 0x80 + c % 64 < 0xC0 := by omega
  simp only [utf8Step, if_neg ha, if_neg hb, if_pos hc', if_pos hcont]
  simp only [Prod.mk.injEq, and_true]
  omega

theorem utf8Step_enc3 (c : Nat) (h1 : 0x800 ≤ c) (h2 : c < 0x10000)
    (h3 : ¬(0xD800 ≤ c ∧ c < 0xE000)) (bs : List Nat) :
    utf8Step (0xE0 + c / 4096) ((0x80 + (c / 64) % 64) :: (0x80 + c % 64) :: bs) = (c, bs) := by
  have ha : ¬(0xE0 + c / 4096 < 0x80) := by omega
  have hb : ¬(0xE0 + c / 4096 < 0xC2) := by omega
  have hc' : ¬(0xE0 + c / 4096 < 0xE0) := by omega
  have hd : 0xE0 + c / 4096 < 0xF0 := by omega
  have hcond : (0x80 ≤ 0x80 + (c / 64) % 64 ∧ 0x80 + (c / 64) % 64 < 0xC0) ∧
      ¬(0xE0 + c / 4096 = 0xE0 ∧ 0x80 + (c / 64) % 64 < 0xA0) ∧
      ¬(0xE0 + c / 4096 = 0xED ∧ 0xA0 ≤ 0x80 + (c / 64) % 64) := by omega
  have hcont2 : 0x80 ≤ 0x80 + c % 64 ∧ 0x80 + c % 64 < 0xC0 := by omega
  simp only [utf8Step, if_neg ha, if_neg hb, if_neg hc', if_pos hd, if_pos hcond,
    if_pos hcont2]
  simp only [Prod.mk.injEq, and_true]
  omega

theorem utf8Step_enc4 (c : Nat) (h1 : 0x10000 ≤ c) (h2 : c < 0x110000) (bs : List Nat) :
    utf8Step (0xF0 + c / 0x40000)
      ((0x80 + (c / 4096) % 64) :: (0x80 + (c / 64) % 64) :: (0x80 + c % 64) :: bs) = (c, bs) := by
  have ha : ¬(0xF0 + c / 0x40000 < 0x80) := by omega
  have hb : ¬(0xF0 + c / 0x40000 < 0xC2) := by omega
  have hc' : ¬(0xF0 + c / 0x40000 < 0xE0) := by omega
  have hd : ¬(0xF0 + c / 0x40000 < 0xF0) := by omega
  have he : 0xF0 + c / 0x40000 < 0xF5 := by omega
  have hcond : (0x80 ≤ 0x80 + (c / 4096) % 64 ∧ 0x80 + (c / 4096) % 64 < 0xC0) ∧
      ¬(0xF0 + c / 0x40000 = 0xF0 ∧ 0x80 + (c / 4096) % 64 < 0x90) ∧
      ¬(0xF0 + c / 0x40000 = 0xF4 ∧ 0x90 ≤ 0x80 + (c / 4096) % 64) := by omega
  have hcont2 : 0x80 ≤ 0x80 + (c / 64) % 64 ∧ 0x80 + (c / 64) % 64 < 0xC0 := by omega
  have hcont3 : 0x80 ≤ 0x80 + c % 64 ∧ 0x80 + c % 64 < 0xC0 := by omega
  simp only [utf8Step, if_neg ha, if_neg hb, if_neg hc', if_neg hd, if_pos he, if_pos hcond,
    if_pos hcont2, if_pos hcont3]
  simp only [Prod.mk.injEq, and_true]
  omega

theorem utf8Decode_encodeChar (c : Nat) (hc : ValidChar c) (bs : List Nat) :
    utf8Decode (utf8EncodeChar c ++ bs) = c :: utf8Decode bs := by
  obtain ⟨h1, h2⟩ := hc
  unfold utf8EncodeChar
  by_cases ha : c < 0x80
  · rw [if_pos ha]
    simp only [List.cons_append, List.nil_append]
    rw [utf8Decode_cons, utf8Step_enc1 c ha]
  · by_cases hb : c < 0x800
    · rw [if_neg ha, if_pos hb]
      simp only [List.cons_append, List.nil_append]
      rw [utf8Decode_cons, utf8Step_enc2 c (by omega) hb]
    · by_cases hd : c < 0x10000
      · rw [if_neg ha, if_neg hb, if_pos hd]
        simp only [List.cons_append, List.nil_append]
        rw [utf8Decode_cons, utf8Step_enc3 c (by omega) hd h2]
      · rw [if_neg ha, if_neg hb, if_neg hd]
        simp only [List.cons_append, List.nil_append]
        rw [utf8Decode_cons, utf8Step_enc4 c (by omega) h1]

theorem utf8Encode_cons (c : Nat) (s : PyStr) :
    utf8Encode (c :: s) = utf8EncodeChar c ++ utf8Encode s := by
  simp [utf8Encode]

theorem utf8Decode_utf8Encode (s : PyStr) (h : ∀ c ∈ s, ValidChar c) :
    utf8Decode (utf8Encode s) = s := by
  induction s with
  | nil => simpa [utf8Encode] using utf8Decode_nil
  | cons c rest ih =>
    have hc : ValidChar c := h c (List.mem_cons_self c rest)
    have hrest := ih (fun x hx => h x (List.mem_cons_of_mem _ hx))
    rw [utf8Encode_cons, utf8Decode_encodeChar c hc, hrest]

/-! ## Percent-encoding (model of `urllib.parse.quote(part, safe='')` and
`urllib.parse.unquote`) -/

/-- The characters never quoted by `urllib.parse.quote`:
ASCII letters, digits and `_.-~`. -/
def alwaysSafeByte (b : Nat) : Bool :=
  (48 ≤ b && b ≤ 57) || (65 ≤ b && b ≤ 90) || (97 ≤ b && b ≤ 122) ||
    b == 95 || b == 46 || b == 45 || b == 126

/-- Upper-case hexadecimal digit for a value below 16 (as used by
`urllib.parse.quote`). -/
def hexDigitU (n : Nat) : Nat := if n < 10 then 48 + n else 55 + n

/-- Percent-render one byte: safe bytes stand for themselves, other bytes
become `%XX` with upper-case hex. -/
def quoteByte (b : Nat) : PyStr :=
  if alwaysSafeByte b then [b] else [37, hexDigitU (b / 16), hexDigitU (b % 16)]

/-- Model of `urllib.parse.quote(s, safe='')`: UTF-8 encode, then
percent-render every byte. -/
def pyQuote (s : PyStr) : PyStr := (utf8Encode s).flatMap quoteByte

/-- Value of a hexadecimal digit character, if it is one
(`unquote` accepts both cases). -/
def hexVal (c : Nat) : Option Nat :=
  if 48 ≤ c ∧ c ≤ 57 then some (c - 48)
  else if 65 ≤ c ∧ c ≤ 70 then some (c - 55)
  else if 97 ≤ c ∧ c ≤ 102 then some (c - 87)
  else none

/-- Tokenize a percent-encoded string: each valid `%XX` becomes a byte
token (`Sum.inr`), every other character a literal token (`Sum.inl`),
exactly as `urllib.parse.unquote` scans its input. -/
def splitRuns : PyStr → List (Sum Nat Nat)
  | [] => []
  | 37 :: h1 :: h2 :: rest2 =>
    match hexVal h1, hexVal h2 with
    | some a, some b => Sum.inr (16 * a + b) :: splitRuns rest2
    | _, _ => Sum.inl 37 :: splitRuns (h1 :: h2 :: rest2)
  | c :: rest => Sum.inl c :: splitRuns rest

/-- Decode the token stream: maximal runs of byte tokens are UTF-8
decoded together (with replacement on errors), literal characters pass
through — the behaviour of `urllib.parse.unquote(s)` with its default
`encoding='utf-8', errors='replace'`. -/
def decodeTokens : List (Sum Nat Nat) → List Nat → PyStr
  | [], acc => utf8Decode acc.reverse
  | Sum.inl c :: rest, acc => utf8Decode acc.reverse ++ c :: decodeTokens rest []
  | Sum.inr b :: rest, acc => decodeTokens rest (b :: acc)

/-- Model of `urllib.parse.unquote`. -/
def pyUnquote (s : PyStr) : PyStr := decodeTokens (splitRuns s) []

/-- Every byte produced by `utf8EncodeChar` on a valid scalar is < 256. -/
theorem utf8EncodeChar_lt_256 (c : Nat) (hc : c < 0x110000) :
    ∀ b ∈ utf8EncodeChar c, b < 256 := by
  intro b hb
  unfold utf8EncodeChar at hb
  by_cases ha : c < 0x80
  · rw [if_pos ha] at hb
    simp only [List.mem_singleton] at hb
    omega
  · by_cases h8 : c < 0x800
    · rw [if_neg ha, if_pos h8] at hb
      simp at hb
      rcases hb with h | h <;> omega
    · by_cases h16 : c < 0x10000
      · rw [if_neg ha, if_neg h8, if_pos h16] at hb
        simp at hb
        rcases hb with h | h | h <;> omega
      · rw [if_neg ha, if_neg h8, if_neg h16] at hb
        simp at hb
        rcases hb with h | h | h | h <;> omega

/-- The token corresponding to a byte after quote-then-scan. -/
def tokOf (b : Nat) : Sum Nat Nat := if alwaysSafeByte b then Sum.inl b else Sum.inr b

theorem hexVal_hexDigitU (n : Nat) (h : n < 16) : hexVal (hexDigitU n) = some n := by
  unfold hexVal hexDigitU
  by_cases h10 : n < 10
  · rw [if_pos h10, if_pos (by omega)]
    simp only [Option.some.injEq]
    omega
  · rw [if_neg h10, if_neg (by omega), if_pos (by omega)]
    simp only [Option.some.injEq]
    omega

theorem splitRuns_notpct (b : Nat) (h37 : b ≠ 37) (t : PyStr) :
    splitRuns (b :: t) = Sum.inl b :: splitRuns t := by
  rw [splitRuns.eq_def]
  split
  · simp_all
  · rename_i heq
    rw [List.cons.injEq] at heq
    exact absurd heq.1 h37
  · rename_i c rest _ heq
    rw [List.cons.injEq] at heq
    rw [heq.1, heq.2]

theorem splitRuns_pct (d1 d2 a b : Nat) (hd1 : hexVal d1 = some a)
    (hd2 : hexVal d2 = some b) (t : PyStr) :
    splitRuns (37 :: d1 :: d2 :: t) = Sum.inr (16 * a + b) :: splitRuns t := by
  rw [splitRuns.eq_def]
  simp only [hd1, hd2]

theorem splitRuns_quoteByte (b : Nat) (hb : b < 256) (t : PyStr) :
    splitRuns (quoteByte b ++ t) = tokOf b :: splitRuns t := by
  unfold quoteByte tokOf
  by_cases hs : alwaysSafeByte b
  · simp only [if_pos hs, List.cons_append, List.nil_append]
    have h37 : b ≠ 37 := by
      intro h
      rw [h] at hs
      simp [alwaysSafeByte] at hs
    exact splitRuns_notpct b h37 t
  · simp only [if_neg hs, List.cons_append, List.nil_append]
    rw [splitRuns_pct _ _ _ _ (hexVal_hexDigitU (b / 16) (by omega))
      (hexVal_hexDigitU (b % 16) (by omega))]
    congr 2
    omega

theorem splitRuns_quoteBytes (bs : List Nat) (hb : ∀ b ∈ bs, b < 256) (t : PyStr) :
    splitRuns (bs.flatMap quoteByte ++ t) = bs.map tokOf ++ splitRuns t := by
  induction bs with
  | nil => simp
  | cons b rest ih =>
    simp only [List.flatMap_cons, List.map_cons, List.append_assoc, List.cons_append]
    rw [splitRuns_quoteByte b (hb b (List.mem_cons_self b rest)) _,
      ih (fun x hx => hb x (List.mem_cons_of_mem _ hx))]

theorem decodeTokens_inrRun (bs : List Nat) (rest : List (Sum Nat Nat)) (acc : List Nat) :
    decodeTokens (bs.map Sum.inr ++ rest) acc = decodeTokens rest (bs.reverse ++ acc) := by
  induction bs generalizing acc with
  | nil => simp
  | cons b bt ih =>
    simp only [List.map_cons, List.cons_append, decodeTokens]
    change decodeTokens (List.map Sum.inr bt ++ rest) (b :: acc) = _
    rw [ih]
    congr 1
    simp

/-- Bytes of the UTF-8 encoding of an unquoted (not-always-safe) code
point are all rendered escaped, i.e. their tokens are byte tokens. -/
theorem map_tokOf_unsafeChar (c : Nat) (hc : ¬(c < 0x80 ∧ alwaysSafeByte c)) :
    (utf8EncodeChar c).map tokOf = (utf8EncodeChar c).map Sum.inr := by
  apply List.map_congr_left
  intro b hb
  unfold tokOf
  rw [if_neg]
  intro hsafe
  have hb128 : b < 0x80 := by
    simp only [alwaysSafeByte, Bool.or_eq_true, Bool.and_eq_true, decide_eq_true_eq,
      beq_iff_eq] at hsafe
    omega
  -- a safe (hence ASCII) byte can only arise from a 1-byte encoding of c itself
  unfold utf8EncodeChar at hb
  by_cases ha : c < 0x80
  · rw [if_pos ha] at hb
    simp only [List.mem_singleton] at hb
    subst hb
    exact absurd ⟨ha, hsafe⟩ hc
  · by_cases h8 : c < 0x800
    · rw [if_neg ha, if_pos h8] at hb
      simp at hb
      rcases hb with h | h <;> omega
    · by_cases h16 : c < 0x10000
      · rw [if_neg ha, if_neg h8, if_pos h16] at hb
        simp at hb
        rcases hb with h | h | h <;> omega
      · rw [if_neg ha, if_neg h8, if_neg h16] at hb
        simp at hb
        rcases hb with h | h | h | h <;> omega

theorem decodeTokens_quoted (s : PyStr) (hs : ∀ c ∈ s, ValidChar c) (p : PyStr)
    (hp : ∀ c ∈ p, ValidChar c) :
    decodeTokens ((utf8Encode s).map tokOf) (utf8Encode p).reverse = p ++ s := by
  induction s generalizing p with
  | nil =>
    simp only [utf8Encode, List.flatMap_nil, List.map_nil, decodeTokens, List.reverse_reverse,
      List.append_nil]
    exact utf8Decode_utf8Encode p hp
  | cons c rest ih =>
    have hc : ValidChar c := hs c (List.mem_cons_self c rest)
    have hrest : ∀ x ∈ rest, ValidChar x := fun x hx => hs x (List.mem_cons_of_mem _ hx)
    rw [utf8Encode_cons, List.map_append]
    by_cases hsafe : c < 0x80 ∧ alwaysSafeByte c
    · have henc : utf8EncodeChar c = [c] := by
        unfold utf8EncodeChar
        rw [if_pos hsafe.1]
      rw [henc]
      simp only [List.map_cons, List.map_nil, tokOf, if_pos hsafe.2, List.cons_append,
        List.nil_append, decodeTokens, List.reverse_reverse]
      rw [utf8Decode_utf8Encode p hp]
      have h0 : decodeTokens (List.map tokOf (utf8Encode rest)) [] = rest := by
        have := ih hrest [] (by intro x hx; simp at hx)
        rwa [show (utf8Encode ([] : PyStr)).reverse = [] from rfl, List.nil_append] at this
      rw [h0]
    · rw [map_tokOf_unsafeChar c hsafe, decodeTokens_inrRun]
      have hacc : (utf8EncodeChar c).reverse ++ (utf8Encode p).reverse =
          (utf8Encode (p ++ [c])).reverse := by
        rw [← List.reverse_append]
        congr 1
        simp [utf8Encode]
      rw [hacc, ih hrest (p ++ [c])]
      · simp
      · intro x hx
        rcases List.mem_append.mp hx with h | h
        · exact hp x h
        · simp only [List.mem_singleton] at h
          rwa [h]

/-- `unquote (quote s) = s` for every string of Unicode scalar values:
the key property of `urllib.parse.quote`/`unquote` that the identifier
codec builds on. -/
theorem pyUnquote_pyQuote (s : PyStr) (hs : ∀ c ∈ s, ValidChar c) :
    pyUnquote (pyQuote s) = s := by
  unfold pyUnquote pyQuote
  have hlt : ∀ b ∈ utf8Encode s, b < 256 := by
    intro b hb
    unfold utf8Encode at hb
    rcases List.mem_flatMap.mp hb with ⟨c, hc, hbc⟩
    exact utf8EncodeChar_lt_256 c (hs c hc).1 b hbc
  have h1 : splitRuns ((utf8Encode s).flatMap quoteByte) = (utf8Encode s).map tokOf := by
    have := splitRuns_quoteBytes (utf8Encode s) hlt []
    rwa [show splitRuns [] = [] from rfl, List.append_nil, List.append_nil] at this
  rw [h1]
  have := decodeTokens_quoted s hs [] (by intro x hx; simp at hx)
  rwa [show (utf8Encode ([] : PyStr)).reverse = [] from rfl, List.nil_append] at this

/-! ## `str.split(sep)` / `sep.join(...)` (Python semantics: `''.split('/') == ['']`) -/

/-- Model of Python `s.split(sep)` for a one-character separator. -/
def pySplit (sep : Nat) : PyStr → List PyStr
  | [] => [[]]
  | c :: rest =>
    match pySplit sep rest with
    | [] => [[]]
    | g :: gs => if c = sep then [] :: g :: gs else (c :: g) :: gs

/-- Model of Python `sep.join(parts)` for a one-character separator. -/
def pyJoin (sep : Nat) : List PyStr → PyStr
  | [] => []
  | [p] => p
  | p :: rest => p ++ sep :: pyJoin sep rest

theorem pySplit_cons (sep c : Nat) (rest : PyStr) :
    pySplit sep (c :: rest) =
      (match pySplit sep rest with
       | [] => [[]]
       | g :: gs => if c = sep then [] :: g :: gs else (c :: g) :: gs) := rfl

theorem pySplit_ne_nil (sep : Nat) (s : PyStr) : pySplit sep s ≠ [] := by
  cases s with
  | nil => simp [pySplit]
  | cons c rest =>
    rw [pySplit_cons]
    cases h : pySplit sep rest with
    | nil => simp
    | cons g gs =>
      by_cases hc : c = sep <;> simp [hc]

theorem pySplit_no_sep (sep : Nat) (p : PyStr) (h : sep ∉ p) : pySplit sep p = [p] := by
  induction p with
  | nil => rfl
  | cons c rest ih =>
    have hc : c ≠ sep := fun hh => h (hh ▸ List.mem_cons_self c rest)
    have hrest : sep ∉ rest := fun hh => h (List.mem_cons_of_mem _ hh)
    rw [pySplit_cons, ih hrest]
    simp [hc]

theorem pySplit_append_sep (sep : Nat) (p t : PyStr) (h : sep ∉ p) :
    pySplit sep (p ++ sep :: t) = p :: pySplit sep t := by
  induction p with
  | nil =>
    rw [List.nil_append, pySplit_cons]
    cases ht : pySplit sep t with
    | nil => exact absurd ht (pySplit_ne_nil sep t)
    | cons g gs => simp
  | cons c rest ih =>
    have hc : c ≠ sep := fun hh => h (hh ▸ List.mem_cons_self c rest)
    have hrest : sep ∉ rest := fun hh => h (List.mem_cons_of_mem _ hh)
    rw [List.cons_append, pySplit_cons, ih hrest]
    simp [hc]

theorem pySplit_pyJoin (sep : Nat) (parts : List PyStr) (hne : parts ≠ [])
    (h : ∀ p ∈ parts, sep ∉ p) : pySplit sep (pyJoin sep parts) = parts := by
  induction parts with
  | nil => exact absurd rfl hne
  | cons p rest ih =>
    cases rest with
    | nil =>
      show pySplit sep (pyJoin sep [p]) = [p]
      rw [show pyJoin sep [p] = p from rfl]
      exact pySplit_no_sep sep p (h p (List.mem_cons_self p []))
    | cons q qs =>
      rw [show pyJoin sep (p :: q :: qs) = p ++ sep :: pyJoin sep (q :: qs) from rfl]
      rw [pySplit_append_sep sep p _ (h p (List.mem_cons_self ..)),
        ih (by simp) (fun x hx => h x (List.mem_cons_of_mem _ hx))]

/-! ## The identifier codec
(`encode_part` / `identifier` / `identifier_parts`, identical in
`xrdinfo-src/xrdinfo/__init__.py` and `xrdinfo/xrdinfo.py`) -/

/-- `encode_part(part)`: `urllib.parse.quote(part, safe='')`. -/
def encode_part (part : PyStr) : PyStr := pyQuote part

/-- `identifier(items)`: `'/'.join(map(encode_part, items))`. -/
def identifier (items : List PyStr) : PyStr := pyJoin 47 (items.map encode_part)

/-- `identifier_parts(ident_str)`: `list(map(urllib.parse.unquote, ident_str.split('/')))`. -/
def identifier_parts (ident_str : PyStr) : List PyStr :=
  (pySplit 47 ident_str).map pyUnquote

/-- The percent-encoded form of a part never contains the separator `/`. -/
theorem slash_not_mem_pyQuote (p : PyStr) : 47 ∉ pyQuote p := by
  intro hmem
  unfold pyQuote at hmem
  rcases List.mem_flatMap.mp hmem with ⟨b, _, hbq⟩
  unfold quoteByte at hbq
  by_cases hs : alwaysSafeByte b
  · rw [if_pos hs] at hbq
    simp only [List.mem_singleton] at hbq
    subst hbq
    simp [alwaysSafeByte] at hs
  · rw [if_neg hs] at hbq
    rw [List.mem_cons, List.mem_cons, List.mem_singleton] at hbq
    have h1 : hexDigitU (b / 16) ≠ 47 := by unfold hexDigitU; split <;> omega
    have h2 : hexDigitU (b % 16) ≠ 47 := by unfold hexDigitU; split <;> omega
    rcases hbq with h | h | h
    · omega
    · exact h1 h.symm
    · exact h2 h.symm

/-- C1 (amended): the identifier codec round-trips every NONEMPTY sequence
of parts (of Unicode scalar values), including parts containing the
separator `/` or multi-byte unicode:
`identifier_parts(identifier(parts)) == parts`. -/
theorem C1_identifier_roundtrip (parts : List PyStr) (hne : parts ≠ [])
    (hv : ∀ p ∈ parts, ∀ c ∈ p, ValidChar c) :
    identifier_parts (identifier parts) = parts := by
  unfold identifier identifier_parts encode_part
  rw [pySplit_pyJoin 47 (parts.map pyQuote)
    (by simpa using hne)
    (by
      intro q hq
      rcases List.mem_map.mp hq with ⟨p, _, hpq⟩
      rw [← hpq]
      exact slash_not_mem_pyQuote p)]
  rw [List.map_map]
  conv_rhs => rw [← List.map_id parts]
  apply List.map_congr_left
  intro p hp
  exact pyUnquote_pyQuote p (hv p hp)

/-- C1 witness: a concrete round-trip instance with a part containing the
separator character and a part containing multi-byte unicode
(U+00E9, U+1F600). -/
theorem C1_identifier_roundtrip_witness :
    ([pys "a/b", [233, 128512], pys "x y%"] : List PyStr) ≠ [] ∧
      identifier_parts (identifier [pys "a/b", [233, 128512], pys "x y%"]) =
        [pys "a/b", [233, 128512], pys "x y%"] :=
  ⟨by decide,
   C1_identifier_roundtrip [pys "a/b", [233, 128512], pys "x y%"] (by decide) (by decide)⟩

/-- C1 counterexample: for the empty sequence of parts the round-trip
fails — `identifier([]) == ''` and `identifier_parts('') == ['']`, so
`identifier_parts(identifier([])) == [''] != []`.  The claim quantifies
over every sequence of parts and is therefore false as stated. -/
theorem C1_identifier_roundtrip_counterexample :
    identifier_parts (identifier []) = [[]] ∧ ([[]] : List PyStr) ≠ [] := by
  constructor
  · show (pySplit 47 (pyJoin 47 [])).map pyUnquote = [[]]
    rw [show pyJoin 47 [] = [] from rfl, show pySplit 47 [] = [[]] from rfl]
    rw [show ([[]] : List PyStr).map pyUnquote = [pyUnquote []] from rfl]
    unfold pyUnquote
    rw [show splitRuns [] = [] from rfl, show decodeTokens [] [] = utf8Decode [] from rfl,
      utf8Decode_nil]
  · simp

/-! ## The library's exception model

`XrdInfoError` and its subclasses from `xrdinfo-src/xrdinfo/__init__.py`
(identical hierarchy in `xrdinfo/xrdinfo.py`), plus the builtin Python
exceptions that the cited code paths can raise. -/

inductive PyExc where
  /-- `XrdInfoError(msg)` with a plain string argument. -/
  | xrdError (msg : PyStr)
  /-- `RequestTimeoutError`. -/
  | requestTimeout (msg : PyStr)
  /-- `SoapFaultError(msg)`; its stored message is already prefixed. -/
  | soapFault (msg : PyStr)
  /-- `NotOpenapiServiceError`. -/
  | notOpenapiService (msg : PyStr)
  /-- `OpenapiReadError`. -/
  | openapiRead (msg : PyStr)
  /-- builtin `IndexError` (e.g. `client[3]` on a 2-element sequence). -/
  | indexError
  /-- builtin `KeyError`. -/
  | keyError
  /-- builtin `TypeError`. -/
  | typeError
  /-- builtin `AttributeError` (e.g. `.group` on a failed match). -/
  | attributeError
  /-- `xml.etree.ElementTree.ParseError` and other parse failures. -/
  | parseError
deriving DecidableEq, Repr

/-- Membership in the library's own error taxonomy: `isinstance(e, XrdInfoError)`. -/
def PyExc.isXrdInfoError : PyExc → Bool
  | .xrdError _ | .requestTimeout _ | .soapFault _ | .notOpenapiService _ | .openapiRead _ => true
  | _ => false

/-- The message text carried by an exception (`str(e)`); builtin
exceptions carry details we do not model, represented by their type name. -/
def PyExc.message : PyExc → PyStr
  | .xrdError m | .requestTimeout m | .soapFault m | .notOpenapiService m | .openapiRead m => m
  | .indexError => pys "IndexError"
  | .keyError => pys "KeyError"
  | .typeError => pys "TypeError"
  | .attributeError => pys "AttributeError"
  | .parseError => pys "ParseError"

/-! ## `methods()` arity validation (claim C2)

`xrdinfo-src/xrdinfo/__init__.py` lines 600-608: the validation performed
before the SOAP request is built and sent.  `methods` is a generator, so
this code runs on first iteration, before any network I/O.  Note the
evaluation order of `len(client) == 3 or client[3] == ''`: for a client
of length < 3 the subscript `client[3]` raises `IndexError`. -/

/-- Which request template (if any) `methods()` selects. -/
inductive ReqTemplate where
  | memberTempl
  | subsystemTempl
deriving DecidableEq, Repr

/-- Python evaluation of `len(client) == 3 or client[3] == ''` with its
short-circuit: when the length is not 3 the subscript `client[3]` is
evaluated and raises `IndexError` if out of range. -/
def clientMemberCond (client : List PyStr) : Except PyExc Bool :=
  if client.length = 3 then .ok true
  else
    match client.get? 3 with
    | none => .error PyExc.indexError
    | some p3 => .ok (decide (p3 = []))

/-- The validation prefix of `methods()` in `xrdinfo-src/xrdinfo/__init__.py`:
`if (len(client) == 3 or client[3] == '') and len(producer) == 4: ...`
`elif len(client) == 4 and len(producer) == 4: ...`
`else: raise XrdInfoError('Incorrect client or producer identifier length')`.
Returns the selected template, or the exception raised before any network
request. -/
def methodsPrepare (client producer : List PyStr) : Except PyExc ReqTemplate :=
  match clientMemberCond client with
  | .error e => .error e
  | .ok cond1 =>
    if cond1 = true ∧ producer.length = 4 then .ok .memberTempl
    else if client.length = 4 ∧ producer.length = 4 then .ok .subsystemTempl
    else .error (.xrdError (pys "Incorrect client or producer identifier length"))

/-- The same prefix in the legacy `xrdinfo/xrdinfo.py` (lines 371-378):
instead of raising, the invalid-arity branch is a bare `return`, making
the generator yield nothing; `none` models that silent empty return. -/
def methodsPrepareLegacy (client producer : List PyStr) :
    Except PyExc (Option ReqTemplate) :=
  match clientMemberCond client with
  | .error e => .error e
  | .ok cond1 =>
    if cond1 = true ∧ producer.length = 4 then .ok (some .memberTempl)
    else if client.length = 4 ∧ producer.length = 4 then .ok (some .subsystemTempl)
    else .ok none

/-- `methods()` performs a network request iff the validation prefix
selects a template. -/
def methodsAttemptsNetwork (client producer : List PyStr) : Bool :=
  match methodsPrepare client producer with
  | .ok _ => true
  | .error _ => false

theorem clientMemberCond_short (client : List PyStr) (h : client.length < 3) :
    clientMemberCond client = .error PyExc.indexError := by
  unfold clientMemberCond
  rw [if_neg (by omega), List.get?_eq_none.mpr (by omega)]

theorem clientMemberCond_three (client : List PyStr) (h : client.length = 3) :
    clientMemberCond client = .ok true := by
  unfold clientMemberCond
  rw [if_pos h]

theorem clientMemberCond_long (client : List PyStr) (p3 : PyStr) (h : client.length ≠ 3)
    (hp : client.get? 3 = some p3) :
    clientMemberCond client = .ok (decide (p3 = [])) := by
  unfold clientMemberCond
  rw [if_neg h, hp]

theorem methodsPrepare_of_cond (client producer : List PyStr) (c : Bool)
    (h : clientMemberCond client = .ok c) :
    methodsPrepare client producer =
      (if c = true ∧ producer.length = 4 then .ok .memberTempl
       else if client.length = 4 ∧ producer.length = 4 then .ok .subsystemTempl
       else .error (.xrdError (pys "Incorrect client or producer identifier length"))) := by
  unfold methodsPrepare
  rw [h]

/-- C2 (amended): in the current library, a client identifier with fewer
than 3 parts makes `methods()` fail before any network request, but with
a builtin `IndexError` (from `client[3]`), not with an error of the
library's taxonomy; a client identifier with 5 or more parts whose 4th
part is nonempty, and any producer identifier whose length is not 4,
raise the library's validation `XrdInfoError` before any network request;
a client with 5 or more parts whose 4th part is empty together with a
4-part producer is accepted as member-style and the request proceeds. -/
theorem C2_methods_arity (client producer : List PyStr) :
    (client.length < 3 →
      methodsPrepare client producer = .error PyExc.indexError ∧
        methodsAttemptsNetwork client producer = false) ∧
    (∀ p3, 5 ≤ client.length → client.get? 3 = some p3 → p3 ≠ [] →
      methodsPrepare client producer =
          .error (PyExc.xrdError (pys "Incorrect client or producer identifier length")) ∧
        methodsAttemptsNetwork client producer = false) ∧
    (3 ≤ client.length → producer.length ≠ 4 →
      (∃ e, methodsPrepare client producer = .error e ∧ e.isXrdInfoError = true) ∧
        methodsAttemptsNetwork client producer = false) ∧
    (5 ≤ client.length → client.get? 3 = some [] → producer.length = 4 →
      methodsPrepare client producer = .ok ReqTemplate.memberTempl ∧
        methodsAttemptsNetwork client producer = true) := by
  refine ⟨?_, ?_, ?_, ?_⟩
  · intro hlen
    have h := clientMemberCond_short client hlen
    have hp : methodsPrepare client producer = .error PyExc.indexError := by
      unfold methodsPrepare
      rw [h]
    refine ⟨hp, ?_⟩
    unfold methodsAttemptsNetwork
    rw [hp]
  · intro p3 hlen hget hne
    have h := clientMemberCond_long client p3 (by omega) hget
    have hd : decide (p3 = []) = false := by simpa using hne
    rw [hd] at h
    have hp : methodsPrepare client producer =
        .error (PyExc.xrdError (pys "Incorrect client or producer identifier length")) := by
      rw [methodsPrepare_of_cond client producer false h,
        if_neg (by simp), if_neg (by omega)]
    refine ⟨hp, ?_⟩
    unfold methodsAttemptsNetwork
    rw [hp]
  · intro hlen hprod
    by_cases h3 : client.length = 3
    · have h := clientMemberCond_three client h3
      have hp : methodsPrepare client producer =
          .error (PyExc.xrdError (pys "Incorrect client or producer identifier length")) := by
        rw [methodsPrepare_of_cond client producer true h,
          if_neg (by simp [hprod]), if_neg (by omega)]
      refine ⟨⟨_, hp, rfl⟩, ?_⟩
      unfold methodsAttemptsNetwork
      rw [hp]
    · obtain ⟨p3, hget⟩ : ∃ p3, client.get? 3 = some p3 := by
        cases hg : client.get? 3 with
        | none =>
          rw [List.get?_eq_none] at hg
          omega
        | some p3 => exact ⟨p3, rfl⟩
      have h := clientMemberCond_long client p3 h3 hget
      have hp : methodsPrepare client producer =
          .error (PyExc.xrdError (pys "Incorrect client or producer identifier length")) := by
        rw [methodsPrepare_of_cond client producer _ h,
          if_neg (by simp [hprod]), if_neg (by simp [hprod])]
      refine ⟨⟨_, hp, rfl⟩, ?_⟩
      unfold methodsAttemptsNetwork
      rw [hp]
  · intro hlen hget hprod
    have h := clientMemberCond_long client [] (by omega) hget
    have hp : methodsPrepare client producer = .ok ReqTemplate.memberTempl := by
      rw [methodsPrepare_of_cond client producer _ h, if_pos (by simp [hprod])]
    refine ⟨hp, ?_⟩
    unfold methodsAttemptsNetwork
    rw [hp]

/-- C2 witness: the amended claim applied at a concrete 2-part client. -/
theorem C2_methods_arity_witness :
    methodsPrepare [pys "INST", pys "CLS"] [pys "a", pys "b", pys "c", pys "d"] =
        .error PyExc.indexError ∧
      methodsAttemptsNetwork [pys "INST", pys "CLS"] [pys "a", pys "b", pys "c", pys "d"] =
        false :=
  (C2_methods_arity [pys "INST", pys "CLS"] [pys "a", pys "b", pys "c", pys "d"]).1
    (by decide)

/-- C2 counterexample: a 2-part client identifier — the claim's own
example — makes `methods()` in the current library fail with a builtin
`IndexError` from the subscript `client[3]`, which is NOT a validation
error of the library's error taxonomy (`isinstance(e, XrdInfoError)` is
false); and in the legacy `xrdinfo/xrdinfo.py`, a client of invalid
length 5 with a 3-part producer returns an empty generator instead of
raising any validation error at all. -/
theorem C2_methods_arity_counterexample :
    methodsPrepare [pys "INST", pys "CLS"] [pys "a", pys "b", pys "c", pys "d"] =
        .error PyExc.indexError ∧
      PyExc.indexError.isXrdInfoError = false ∧
      methodsPrepareLegacy [pys "INST", pys "CLS", pys "MEM", pys "SUB", pys "X"]
          [pys "a", pys "b", pys "c"] = .ok none := by
  refine ⟨rfl, rfl, rfl⟩

/-! ## OpenAPI endpoint extraction (claim C9)

`openapi_endpoints` operates on the object obtained from JSON/YAML
parsing (`load_openapi`); that dynamic object is modelled by `PyVal`.
Dictionary keys are modelled as strings (the keys of a parsed OpenAPI
`paths` object).  A parse failure of the raw document raises before this
code runs, in both versions. -/

inductive PyVal where
  | str (s : PyStr)
  | num (n : Int)
  | bool (b : Bool)
  | null
  | list (xs : List PyVal)
  | dict (kvs : List (PyStr × PyVal))

/-- `x.items()` for the loop `for path, operations in data['paths'].items()`:
anything but a dict raises (AttributeError), which both versions catch and
turn into `XrdInfoError('Endpoints not found')`. -/
def PyVal.items : PyVal → Except PyExc (List (PyStr × PyVal))
  | .dict kvs => .ok kvs
  | _ => .error PyExc.typeError

/-- `data['paths']`: a missing key or a non-dict raises (KeyError /
TypeError), caught identically. -/
def PyVal.getKey : PyVal → PyStr → Except PyExc PyVal
  | .dict kvs, k =>
    match kvs.lookup k with
    | some v => .ok v
    | none => .error PyExc.keyError
  | _, _ => .error PyExc.typeError

/-- `operation.get('summary', '')`: `.get` exists only on dicts;
a missing key yields the default `''`. -/
def PyVal.getDefault : PyVal → PyStr → Except PyExc PyVal
  | .dict kvs, k =>
    match kvs.lookup k with
    | some v => .ok v
    | none => .ok (.str [])
  | _, _ => .error PyExc.typeError

/-- One extracted endpoint record
`{'verb': ..., 'path': ..., 'summary': ..., 'description': ...}`. -/
structure Endpoint where
  verb : PyStr
  path : PyStr
  summary : PyVal
  description : PyVal

/-- The HTTP verbs accepted by the current `openapi_endpoints`. -/
def httpVerbs : List PyStr :=
  [pys "get", pys "put", pys "post", pys "delete", pys "options", pys "head",
   pys "patch", pys "trace"]

/-- The collection loop of `openapi_endpoints` in
`xrdinfo-src/xrdinfo/__init__.py` (lines 776-784): walk
`data['paths'] → verb`, keep only HTTP verbs, read summary/description.
Any exception in the loop is converted to
`XrdInfoError('Endpoints not found')`. -/
def collectEndpoints (data : PyVal) : Except PyExc (List Endpoint) :=
  match (do
    let paths ← data.getKey (pys "paths")
    let pathItems ← paths.items
    pathItems.foldlM (fun (acc : List Endpoint) (pv : PyStr × PyVal) => do
      let ops ← pv.2.items
      ops.foldlM (fun (acc2 : List Endpoint) (op : PyStr × PyVal) => do
        if op.1 ∈ httpVerbs then
          let summary ← op.2.getDefault (pys "summary")
          let description ← op.2.getDefault (pys "description")
          pure (acc2 ++ [⟨op.1, pv.1, summary, description⟩])
        else
          pure acc2) acc) []
    : Except PyExc (List Endpoint)) with
  | .error _ => .error (.xrdError (pys "Endpoints not found"))
  | .ok results => .ok results

/-- `openapi_endpoints` of the current library on the parsed document:
after the walk, an empty result list is itself an error
(`if not results: raise XrdInfoError('Endpoints not found')`). -/
def openapi_endpoints (data : PyVal) : Except PyExc (List Endpoint) :=
  match collectEndpoints data with
  | .error e => .error e
  | .ok results =>
    if results.isEmpty then .error (.xrdError (pys "Endpoints not found"))
    else .ok results

/-- The legacy `xrdinfo/xrdinfo.py` version (lines 589-610): no verb
filter — every key of a path item is taken as a verb — and crucially no
emptiness check: an empty list is returned as a successful result. -/
def openapi_endpoints_legacy (data : PyVal) : Except PyExc (List Endpoint) :=
  match (do
    let paths ← data.getKey (pys "paths")
    let pathItems ← paths.items
    pathItems.foldlM (fun (acc : List Endpoint) (pv : PyStr × PyVal) => do
      let ops ← pv.2.items
      ops.foldlM (fun (acc2 : List Endpoint) (op : PyStr × PyVal) => do
        let summary ← op.2.getDefault (pys "summary")
        let description ← op.2.getDefault (pys "description")
        pure (acc2 ++ [⟨op.1, pv.1, summary, description⟩])) acc) []
    : Except PyExc (List Endpoint)) with
  | .error _ => .error (.xrdError (pys "Endpoints not found"))
  | .ok results => .ok results

/-- C9: `openapi_endpoints` of the current library never returns an empty
list: for every parsed input document it either raises an error or
returns a non-empty list of endpoint records — zero extractable
endpoints are reported as the error 'Endpoints not found'. -/
theorem C9_openapi_endpoints_nonempty (data : PyVal) :
    (∃ e, openapi_endpoints data = .error e) ∨
      (∃ l, openapi_endpoints data = .ok l ∧ l ≠ []) := by
  cases h : collectEndpoints data with
  | error e =>
    refine Or.inl ⟨e, ?_⟩
    unfold openapi_endpoints
    rw [h]
  | ok results =>
    have hred : openapi_endpoints data =
        (if results.isEmpty then .error (.xrdError (pys "Endpoints not found"))
         else .ok results) := by
      unfold openapi_endpoints
      rw [h]
    by_cases he : results.isEmpty = true
    · rw [hred, if_pos he]
      exact Or.inl ⟨_, rfl⟩
    · rw [hred, if_neg he]
      exact Or.inr ⟨results, rfl, by simpa [List.isEmpty_iff] using he⟩

/-- C9 counterexample: on the parseable OpenAPI document
`{"paths": {}}` — zero extractable endpoints — the legacy
`xrdinfo/xrdinfo.py` copy RETURNS the empty list instead of raising
'Endpoints not found', refuting the claim for that cited source file. -/
theorem C9_openapi_endpoints_counterexample :
    openapi_endpoints_legacy (PyVal.dict [(pys "paths", PyVal.dict [])]) = .ok [] ∧
      openapi_endpoints (PyVal.dict [(pys "paths", PyVal.dict [])]) =
        .error (.xrdError (pys "Endpoints not found")) := by
  refine ⟨rfl, rfl⟩

/-! ## MD5 (model of `hashlib.md5(...).hexdigest()`, RFC 1321)

Used by the crawler's content-addressed WSDL store
(`xrd_all_wsdls.py`, `hash_wsdls` / `save_wsdl`). -/

def md5K : List Nat :=
  [0xd76aa478, 0xe8c7b756, 0x242070db, 0xc1bdceee,
   0xf57c0faf, 0x4787c62a, 0xa8304613, 0xfd469501,
   0x698098d8, 0x8b44f7af, 0xffff5bb1, 0x895cd7be,
   0x6b901122, 0xfd987193, 0xa679438e, 0x49b40821,
   0xf61e2562, 0xc040b340, 0x265e5a51, 0xe9b6c7aa,
   0xd62f105d, 0x02441453, 0xd8a1e681, 0xe7d3fbc8,
   0x21e1cde6, 0xc33707d6, 0xf4d50d87, 0x455a14ed,
   0xa9e3e905, 0xfcefa3f8, 0x676f02d9, 0x8d2a4c8a,
   0xfffa3942, 0x8771f681, 0x6d9d6122, 0xfde5380c,
   0xa4beea44, 0x4bdecfa9, 0xf6bb4b60, 0xbebfbc70,
   0x289b7ec6, 0xeaa127fa, 0xd4ef3085, 0x04881d05,
   0xd9d4d039, 0xe6db99e5, 0x1fa27cf8, 0xc4ac5665,
   0xf4292244, 0x432aff97, 0xab9423a7, 0xfc93a039,
   0x655b59c3, 0x8f0ccc92, 0xffeff47d, 0x85845dd1,
   0x6fa87e4f, 0xfe2ce6e0, 0xa3014314, 0x4e0811a1,
   0xf7537e82, 0xbd3af235, 0x2ad7d2bb, 0xeb86d391]

def md5S : List Nat :=
  [7, 12, 17, 22, 7, 12, 17, 22, 7, 12, 17, 22, 7, 12, 17, 22,
   5, 9, 14, 20, 5, 9, 14, 20, 5, 9, 14, 20, 5, 9, 14, 20,
   4, 11, 16, 23, 4, 11, 16, 23, 4, 11, 16, 23, 4, 11, 16, 23,
   6, 10, 15, 21, 6, 10, 15, 21, 6, 10, 15, 21, 6, 10, 15, 21]

def mask32 : Nat := 0xFFFFFFFF

def rotl32 (x s : Nat) : Nat := (x % 2 ^ (32 - s)) * 2 ^ s + x / 2 ^ (32 - s)

def md5PadZeros (l : Nat) : Nat := (119 - l % 64) % 64

def le64 (n : Nat) : List Nat := (List.range 8).map (fun i => n / 2 ^ (8 * i) % 256)

def md5Pad (msg : List Nat) : List Nat :=
  msg ++ 0x80 :: List.replicate (md5PadZeros msg.length) 0 ++ le64 (msg.length * 8)

def md5Words (block : List Nat) : List Nat :=
  (List.range 16).map (fun i =>
    block.getD (4 * i) 0 + block.getD (4 * i + 1) 0 * 256 +
      block.getD (4 * i + 2) 0 * 65536 + block.getD (4 * i + 3) 0 * 16777216)

def md5Step (w : List Nat) (st : Nat × Nat × Nat × Nat) (i : Nat) : Nat × Nat × Nat × Nat :=
  let (a, b, c, d) := st
  let fg : Nat × Nat :=
    if i < 16 then ((b &&& c) ||| ((b ^^^ mask32) &&& d), i)
    else if i < 32 then ((d &&& b) ||| ((d ^^^ mask32) &&& c), (5 * i + 1) % 16)
    else if i < 48 then (b ^^^ c ^^^ d, (3 * i + 5) % 16)
    else (c ^^^ (b ||| (d ^^^ mask32)), 7 * i % 16)
  let tmp := (a + fg.1 + md5K.getD i 0 + w.getD fg.2 0) % 2 ^ 32
  (d, (b + rotl32 tmp (md5S.getD i 0)) % 2 ^ 32, b, c)

def md5Compress (st : Nat × Nat × Nat × Nat) (block : List Nat) : Nat × Nat × Nat × Nat :=
  let w := md5Words block
  let (a, b, c, d) := (List.range 64).foldl (md5Step w) st
  ((st.1 + a) % 2 ^ 32, (st.2.1 + b) % 2 ^ 32, (st.2.2.1 + c) % 2 ^ 32, (st.2.2.2 + d) % 2 ^ 32)

def md5Loop : Nat → (Nat × Nat × Nat × Nat) → List Nat → Nat × Nat × Nat × Nat
  | 0, st, _ => st
  | n + 1, st, bs => md5Loop n (md5Compress st (bs.take 64)) (bs.drop 64)

def le32 (n : Nat) : List Nat := (List.range 4).map (fun i => n / 2 ^ (8 * i) % 256)

def hexLower (n : Nat) : Nat := if n < 10 then 48 + n else 87 + n

def byteHexLower (b : Nat) : List Nat := [hexLower (b / 16), hexLower (b % 16)]

/-- `hashlib.md5(msg).hexdigest()` on a byte string. -/
def md5hex (msg : List Nat) : PyStr :=
  let padded := md5Pad msg
  let st :=
    md5Loop (padded.length / 64) (0x67452301, 0xefcdab89, 0x98badcfe, 0x10325476) padded
  (le32 st.1 ++ le32 st.2.1 ++ le32 st.2.2.1 ++ le32 st.2.2.2).flatMap byteHexLower

/-! ## The content-addressed WSDL store
(`xrd_all_wsdls.py`, `hash_wsdls` lines 95-104, `save_wsdl` lines 107-124) -/

/-- Decimal digits of a natural, via a fuel parameter for structural
recursion (`'{}'.format(int(n))`). -/
def natToDecAux : Nat → Nat → PyStr
  | 0, _ => []
  | fuel + 1, n => if n < 10 then [48 + n] else natToDecAux fuel (n / 10) ++ [48 + n % 10]

def natToDec (n : Nat) : PyStr := natToDecAux (n + 1) n

def isDigit (c : Nat) : Bool := 48 ≤ c && c ≤ 57

/-- `int(s)` on a digit string. -/
def decVal (ds : PyStr) : Nat := ds.foldl (fun a d => 10 * a + (d - 48)) 0

/-- Model of `re.search('^(\d+)\.wsdl$', file_name)` followed by
`int(s.group(1))`: the name must be one or more digits followed by
exactly `.wsdl`. -/
def wsdlIndex (name : PyStr) : Option Nat :=
  let ds := name.takeWhile isDigit
  if ds ≠ [] ∧ name.dropWhile isDigit = pys ".wsdl" then some (decVal ds) else none

/-- `hash_wsdls(path)`: scan the directory (modelled as the list of
`(file name, raw bytes)` in `os.listdir` order), keep files matching
`^(\d+)\.wsdl$`, and map each name to the MD5 of its bytes. -/
def hash_wsdls (files : List (PyStr × List Nat)) : List (PyStr × PyStr) :=
  files.filterMap (fun f => (wsdlIndex f.1).map (fun _ => (f.1, md5hex f.2)))

/-- The scan loop of `save_wsdl`: iterate over `hashes` in insertion
order; return the first file name whose hash equals the target, while
tracking the largest numeric index seen so far (`max_wsdl`, starting at
`-1`). -/
def saveLoop : List (PyStr × PyStr) → PyStr → Int → Option PyStr × Int
  | [], _, mx => (none, mx)
  | (k, h) :: rest, target, mx =>
    if h = target then (some k, mx)
    else
      saveLoop rest target
        (match wsdlIndex k with
         | some n => if (n : Int) > mx then (n : Int) else mx
         | none => mx)

/-- The outcome of one `save_wsdl` call: the returned file name, the
updated hash index, and the single file write performed (if any). -/
structure SaveResult where
  name : PyStr
  hashes : List (PyStr × PyStr)
  written : Option (PyStr × List Nat)

/-- `save_wsdl(path, hashes, wsdl)`: hash the UTF-8 bytes of the
document; if an indexed file already has this hash return its name with
no write; otherwise write the bytes under `(max_wsdl+1).wsdl` and record
the new entry. -/
def save_wsdl (hashes : List (PyStr × PyStr)) (wsdl : PyStr) : SaveResult :=
  let whash := md5hex (utf8Encode wsdl)
  let res := saveLoop hashes whash (-1)
  match res.1 with
  | some k => ⟨k, hashes, none⟩
  | none =>
    let newFile := natToDec (res.2 + 1).toNat ++ pys ".wsdl"
    ⟨newFile, hashes ++ [(newFile, whash)], some (newFile, utf8Encode wsdl)⟩

/-- The fold computing `max_wsdl` over a list of index entries. -/
def maxIdxFrom (mx : Int) (hs : List (PyStr × PyStr)) : Int :=
  hs.foldl
    (fun m kv =>
      match wsdlIndex kv.1 with
      | some n => if (n : Int) > m then (n : Int) else m
      | none => m) mx

theorem saveLoop_no_match (hs : List (PyStr × PyStr)) (target : PyStr) (mx : Int)
    (h : ∀ kv ∈ hs, kv.2 ≠ target) :
    saveLoop hs target mx = (none, maxIdxFrom mx hs) := by
  induction hs generalizing mx with
  | nil => rfl
  | cons kv rest ih =>
    obtain ⟨k, v⟩ := kv
    have hkv : v ≠ target := h (k, v) (List.mem_cons_self ..)
    rw [saveLoop, if_neg hkv, ih _ (fun x hx => h x (List.mem_cons_of_mem _ hx))]
    rfl

theorem saveLoop_first_match (hs : List (PyStr × PyStr)) (f target : PyStr) (mx : Int)
    (h : ∀ kv ∈ hs, kv.2 ≠ target) :
    (saveLoop (hs ++ [(f, target)]) target mx).1 = some f := by
  induction hs generalizing mx with
  | nil => simp [saveLoop]
  | cons kv rest ih =>
    obtain ⟨k, v⟩ := kv
    have hkv : v ≠ target := h (k, v) (List.mem_cons_self ..)
    rw [List.cons_append, saveLoop, if_neg hkv]
    exact ih _ (fun x hx => h x (List.mem_cons_of_mem _ hx))

theorem saveLoop_mem (hs : List (PyStr × PyStr)) (target : PyStr) (mx : Int)
    (h : target ∈ hs.map Prod.snd) :
    ∃ k, (saveLoop hs target mx).1 = some k := by
  induction hs generalizing mx with
  | nil => simp at h
  | cons kv rest ih =>
    obtain ⟨k, v⟩ := kv
    by_cases hv : v = target
    · exact ⟨k, by rw [saveLoop, if_pos hv]⟩
    · have : target ∈ rest.map Prod.snd := by
        simp only [List.map_cons, List.mem_cons] at h
        rcases h with h | h
        · exact absurd h.symm hv
        · exact h
      rw [saveLoop, if_neg hv]
      exact ih _ this

theorem decVal_append_digit (xs : PyStr) (d : Nat) :
    decVal (xs ++ [d]) = 10 * decVal xs + (d - 48) := by
  unfold decVal
  rw [List.foldl_append]
  rfl

theorem natToDecAux_spec (fuel : Nat) :
    ∀ n < fuel, natToDecAux fuel n ≠ [] ∧ (∀ c ∈ natToDecAux fuel n, isDigit c = true) ∧
      decVal (natToDecAux fuel n) = n := by
  induction fuel with
  | zero => intro n hn; omega
  | succ f ih =>
    intro n hn
    by_cases h10 : n < 10
    · rw [natToDecAux, if_pos h10]
      refine ⟨by simp, ?_, ?_⟩
      · intro c hc
        simp only [List.mem_singleton] at hc
        subst hc
        simp only [isDigit, Bool.and_eq_true, decide_eq_true_eq]
        omega
      · show decVal ([] ++ [48 + n]) = n
        rw [decVal_append_digit]
        show 10 * decVal [] + (48 + n - 48) = n
        rw [show decVal [] = 0 from rfl]
        omega
    · rw [natToDecAux, if_neg h10]
      have hdiv : n / 10 < f := by omega
      obtain ⟨hne, hdig, hval⟩ := ih (n / 10) hdiv
      refine ⟨by simp [hne], ?_, ?_⟩
      · intro c hc
        rcases List.mem_append.mp hc with h | h
        · exact hdig c h
        · simp only [List.mem_singleton] at h
          subst h
          simp only [isDigit, Bool.and_eq_true, decide_eq_true_eq]
          omega
      · rw [decVal_append_digit, hval]
        omega

theorem natToDec_spec (n : Nat) :
    natToDec n ≠ [] ∧ (∀ c ∈ natToDec n, isDigit c = true) ∧ decVal (natToDec n) = n :=
  natToDecAux_spec (n + 1) n (by omega)

theorem takeWhile_append_all (p : Nat → Bool) (a : PyStr) (b : Nat) (r : PyStr)
    (ha : ∀ x ∈ a, p x = true) (hb : p b = false) :
    (a ++ b :: r).takeWhile p = a ∧ (a ++ b :: r).dropWhile p = b :: r := by
  induction a with
  | nil => simp [List.takeWhile, List.dropWhile, hb]
  | cons x xs ih =>
    have hx : p x = true := ha x (List.mem_cons_self ..)
    obtain ⟨ht, hd⟩ := ih (fun y hy => ha y (List.mem_cons_of_mem _ hy))
    constructor
    · rw [List.cons_append, List.takeWhile_cons, hx, ht]
      simp
    · rw [List.cons_append, List.dropWhile_cons, hx, hd]
      simp

theorem wsdlIndex_natToDec (k : Nat) :
    wsdlIndex (natToDec k ++ pys ".wsdl") = some k := by
  obtain ⟨hne, hdig, hval⟩ := natToDec_spec k
  have hdot : isDigit 46 = false := by decide
  have h := takeWhile_append_all isDigit (natToDec k) 46 (pys "wsdl") hdig hdot
  unfold wsdlIndex
  rw [show (46 : Nat) :: pys "wsdl" = pys ".wsdl" from rfl] at h
  rw [h.1, h.2, if_pos ⟨hne, rfl⟩, hval]

theorem maxIdxFrom_cons (mx : Int) (kv : PyStr × PyStr) (rest : List (PyStr × PyStr)) :
    maxIdxFrom mx (kv :: rest) =
      maxIdxFrom
        (match wsdlIndex kv.1 with
         | some n => if (n : Int) > mx then (n : Int) else mx
         | none => mx) rest := rfl

theorem maxIdxFrom_mono (hs : List (PyStr × PyStr)) (mx : Int) : mx ≤ maxIdxFrom mx hs := by
  induction hs generalizing mx with
  | nil => exact le_refl mx
  | cons kv rest ih =>
    rw [maxIdxFrom_cons]
    refine le_trans ?_ (ih _)
    split
    · split
      · omega
      · omega
    · omega

theorem maxIdxFrom_bound (hs : List (PyStr × PyStr)) (mx : Int) :
    ∀ kv ∈ hs, ∀ n, wsdlIndex kv.1 = some n → (n : Int) ≤ maxIdxFrom mx hs := by
  induction hs generalizing mx with
  | nil => intro kv hkv; simp at hkv
  | cons kv0 rest ih =>
    intro kv hkv n hn
    rw [maxIdxFrom_cons]
    rcases List.mem_cons.mp hkv with h | h
    · subst h
      rw [hn]
      refine le_trans ?_ (maxIdxFrom_mono rest _)
      show (n : Int) ≤ if (n : Int) > mx then (n : Int) else mx
      by_cases hgt : (n : Int) > mx
      · rw [if_pos hgt]
      · rw [if_neg hgt]
        omega
    · exact ih _ kv h n hn

/-- C3: content-addressed save — saving byte-identical content twice in
the same subsystem scope returns the same file name both times; the
second save never writes; if the content's hash was not yet indexed the
first save performs exactly one write (of exactly those bytes), and if it
was already indexed the first save performs no write either and returns
the indexed file's name. -/
theorem C3_save_wsdl_dedup (hashes : List (PyStr × PyStr)) (w : PyStr) :
    (save_wsdl (save_wsdl hashes w).hashes w).name = (save_wsdl hashes w).name ∧
      (save_wsdl (save_wsdl hashes w).hashes w).written = none ∧
      (md5hex (utf8Encode w) ∉ hashes.map Prod.snd →
        (save_wsdl hashes w).written = some ((save_wsdl hashes w).name, utf8Encode w)) ∧
      (md5hex (utf8Encode w) ∈ hashes.map Prod.snd →
        (save_wsdl hashes w).written = none) := by
  by_cases hmem : md5hex (utf8Encode w) ∈ hashes.map Prod.snd
  · obtain ⟨k, hk⟩ := saveLoop_mem hashes (md5hex (utf8Encode w)) (-1) hmem
    have hr : save_wsdl hashes w = ⟨k, hashes, none⟩ := by
      simp only [save_wsdl]
      rw [hk]
    rw [hr]
    exact ⟨by rw [hr], by rw [hr], fun hc => absurd hmem hc, fun _ => rfl⟩
  · have hnom : ∀ kv ∈ hashes, kv.2 ≠ md5hex (utf8Encode w) := by
      intro kv hkv he
      exact hmem (he ▸ List.mem_map_of_mem Prod.snd hkv)
    have hloop := saveLoop_no_match hashes (md5hex (utf8Encode w)) (-1) hnom
    have hr : save_wsdl hashes w =
        ⟨natToDec (maxIdxFrom (-1) hashes + 1).toNat ++ pys ".wsdl",
         hashes ++ [(natToDec (maxIdxFrom (-1) hashes + 1).toNat ++ pys ".wsdl",
           md5hex (utf8Encode w))],
         some (natToDec (maxIdxFrom (-1) hashes + 1).toNat ++ pys ".wsdl", utf8Encode w)⟩ := by
      simp only [save_wsdl]
      rw [hloop]
    have hk2 := saveLoop_first_match hashes
      (natToDec (maxIdxFrom (-1) hashes + 1).toNat ++ pys ".wsdl")
      (md5hex (utf8Encode w)) (-1) hnom
    have hr2 : save_wsdl (save_wsdl hashes w).hashes w =
        ⟨natToDec (maxIdxFrom (-1) hashes + 1).toNat ++ pys ".wsdl",
         (save_wsdl hashes w).hashes, none⟩ := by
      rw [hr]
      simp only [save_wsdl]
      rw [hk2]
    rw [hr2, hr]
    exact ⟨rfl, rfl, fun _ => rfl, fun hc => absurd hc hmem⟩

/-- C3 witness: saving a concrete document twice into an empty store
writes once, under the name `0.wsdl`, and returns `0.wsdl` both times. -/
theorem C3_save_wsdl_dedup_witness :
    md5hex (utf8Encode (pys "<wsdl/>")) ∉ (([] : List (PyStr × PyStr)).map Prod.snd) ∧
      (save_wsdl (save_wsdl [] (pys "<wsdl/>")).hashes (pys "<wsdl/>")).name =
        (save_wsdl [] (pys "<wsdl/>")).name ∧
      (save_wsdl (save_wsdl [] (pys "<wsdl/>")).hashes (pys "<wsdl/>")).written = none ∧
      (save_wsdl [] (pys "<wsdl/>")).written =
        some ((save_wsdl [] (pys "<wsdl/>")).name, utf8Encode (pys "<wsdl/>")) ∧
      (save_wsdl [] (pys "<wsdl/>")).name = pys "0.wsdl" := by
  have h := C3_save_wsdl_dedup [] (pys "<wsdl/>")
  refine ⟨by simp, h.1, h.2.1, h.2.2.1 (by simp), by decide⟩

theorem mem_hash_wsdls (files : List (PyStr × List Nat)) (kv : PyStr × PyStr) :
    kv ∈ hash_wsdls files ↔
      ∃ f ∈ files, (∃ n, wsdlIndex f.1 = some n) ∧ kv = (f.1, md5hex f.2) := by
  unfold hash_wsdls
  rw [List.mem_filterMap]
  constructor
  · rintro ⟨f, hf, hmap⟩
    cases hw : wsdlIndex f.1 with
    | none => rw [hw] at hmap; simp at hmap
    | some n =>
      rw [hw] at hmap
      rw [show (some n).map (fun _ => (f.1, md5hex f.2)) = some (f.1, md5hex f.2) from rfl]
        at hmap
      exact ⟨f, hf, ⟨n, hw⟩, (Option.some.inj hmap).symm⟩
  · rintro ⟨f, hf, ⟨n, hw⟩, hkv⟩
    exact ⟨f, hf, by rw [hw, hkv]; rfl⟩

/-- The `max_wsdl` computed over the index equals the fold over the
directory listing itself (matching names contribute their numeric index). -/
theorem maxIdxFrom_hash_wsdls (files : List (PyStr × List Nat)) (mx : Int) :
    maxIdxFrom mx (hash_wsdls files) =
      files.foldl
        (fun m f =>
          match wsdlIndex f.1 with
          | some n => if (n : Int) > m then (n : Int) else m
          | none => m) mx := by
  induction files generalizing mx with
  | nil => rfl
  | cons f rest ih =>
    rw [List.foldl_cons]
    cases hw : wsdlIndex f.1 with
    | none =>
      have hstep : hash_wsdls (f :: rest) = hash_wsdls rest := by
        unfold hash_wsdls
        rw [List.filterMap_cons, hw]
        rfl
      rw [hstep, ih]
    | some n =>
      have hstep : hash_wsdls (f :: rest) = (f.1, md5hex f.2) :: hash_wsdls rest := by
        unfold hash_wsdls
        rw [List.filterMap_cons, hw]
        rfl
      rw [hstep, maxIdxFrom_cons, ih]
      rw [show wsdlIndex (f.1, md5hex f.2).1 = some n from hw]

/-- C10: frame property of `save_wsdl` on fresh content.  Starting from
the index built by `hash_wsdls` over the subsystem's directory, saving
content whose hash is not yet indexed (i) creates exactly one new file
named `(m+1).wsdl` where `m` is the largest numeric index among existing
stored file names (`-1` when there are none), (ii) does not touch any
existing file (the one write is to a name different from every file in
the directory), and (iii) appends the new entry to the index, preserving
every pre-existing entry unchanged. -/
theorem C10_save_wsdl_frame (files : List (PyStr × List Nat)) (w : PyStr)
    (hfresh : md5hex (utf8Encode w) ∉ (hash_wsdls files).map Prod.snd) :
    (save_wsdl (hash_wsdls files) w).name =
        natToDec (maxIdxFrom (-1) (hash_wsdls files) + 1).toNat ++ pys ".wsdl" ∧
      (save_wsdl (hash_wsdls files) w).written =
        some ((save_wsdl (hash_wsdls files) w).name, utf8Encode w) ∧
      (∀ f ∈ files, f.1 ≠ (save_wsdl (hash_wsdls files) w).name) ∧
      (save_wsdl (hash_wsdls files) w).hashes =
        hash_wsdls files ++
          [((save_wsdl (hash_wsdls files) w).name, md5hex (utf8Encode w))] ∧
      (∀ f ∈ files, ∀ n, wsdlIndex f.1 = some n →
        (n : Int) ≤ maxIdxFrom (-1) (hash_wsdls files)) ∧
      ((-1 : Int) ≤ maxIdxFrom (-1) (hash_wsdls files)) := by
  set hashes := hash_wsdls files with hdef
  have hnom : ∀ kv ∈ hashes, kv.2 ≠ md5hex (utf8Encode w) := by
    intro kv hkv he
    exact hfresh (he ▸ List.mem_map_of_mem Prod.snd hkv)
  have hloop := saveLoop_no_match hashes (md5hex (utf8Encode w)) (-1) hnom
  have hr : save_wsdl hashes w =
      ⟨natToDec (maxIdxFrom (-1) hashes + 1).toNat ++ pys ".wsdl",
       hashes ++ [(natToDec (maxIdxFrom (-1) hashes + 1).toNat ++ pys ".wsdl",
         md5hex (utf8Encode w))],
       some (natToDec (maxIdxFrom (-1) hashes + 1).toNat ++ pys ".wsdl", utf8Encode w)⟩ := by
    simp only [save_wsdl]
    rw [hloop]
  have hbound : ∀ f ∈ files, ∀ n, wsdlIndex f.1 = some n →
      (n : Int) ≤ maxIdxFrom (-1) hashes := by
    intro f hf n hn
    have hkv : (f.1, md5hex f.2) ∈ hashes := by
      rw [hdef, mem_hash_wsdls]
      exact ⟨f, hf, ⟨n, hn⟩, rfl⟩
    exact maxIdxFrom_bound hashes (-1) (f.1, md5hex f.2) hkv n hn
  have hmono := maxIdxFrom_mono hashes (-1)
  refine ⟨by rw [hr], by rw [hr], ?_, by rw [hr], hbound, hmono⟩
  intro f hf hname
  rw [hr] at hname
  have hidx : wsdlIndex f.1 = some (maxIdxFrom (-1) hashes + 1).toNat := by
    rw [hname]
    exact wsdlIndex_natToDec _
  have hle := hbound f hf _ hidx
  omega

/-- C10 witness: a directory holding `0.wsdl` and an unrelated file;
saving fresh content writes exactly `1.wsdl` and leaves both files and
the old index entry intact. -/
theorem C10_save_wsdl_frame_witness :
    md5hex (utf8Encode (pys "<b/>")) ∉
        (hash_wsdls [(pys "0.wsdl", utf8Encode (pys "<a/>")), (pys "notes.txt", [])]).map
          Prod.snd ∧
      (save_wsdl
          (hash_wsdls [(pys "0.wsdl", utf8Encode (pys "<a/>")), (pys "notes.txt", [])])
          (pys "<b/>")).name = pys "1.wsdl" ∧
      (∀ f ∈ [(pys "0.wsdl", utf8Encode (pys "<a/>")), (pys "notes.txt", [])],
        f.1 ≠ (save_wsdl
          (hash_wsdls [(pys "0.wsdl", utf8Encode (pys "<a/>")), (pys "notes.txt", [])])
          (pys "<b/>")).name) ∧
      (save_wsdl
          (hash_wsdls [(pys "0.wsdl", utf8Encode (pys "<a/>")), (pys "notes.txt", [])])
          (pys "<b/>")).hashes =
        hash_wsdls [(pys "0.wsdl", utf8Encode (pys "<a/>")), (pys "notes.txt", [])] ++
          [(pys "1.wsdl", md5hex (utf8Encode (pys "<b/>")))] := by
  have h := C10_save_wsdl_frame [(pys "0.wsdl", utf8Encode (pys "<a/>")), (pys "notes.txt", [])]
    (pys "<b/>") (by decide)
  refine ⟨by decide, ?_, ?_, ?_⟩
  · rw [h.1]
    decide
  · exact h.2.2.1
  · rw [h.2.2.2.1, show (save_wsdl
      (hash_wsdls [(pys "0.wsdl", utf8Encode (pys "<a/>")), (pys "notes.txt", [])])
      (pys "<b/>")).name = pys "1.wsdl" from by rw [h.1]; decide]

/-! ## XML (model of the subset of `xml.etree.ElementTree` the library uses)

`ElementTree.fromstring` is modelled by `xmlParse`: elements with
attributes, namespace-prefix resolution into `{uri}local` tags (as ET
does), leading text content (`.text`), nested children, rejection of
trailing content after the root element.  Inputs using features outside
this subset (entity references, comments, processing instructions,
CDATA) are rejected rather than misparsed.  Text after a child element
(`tail` in ET) is consumed but not stored — no query used by the library
code under verification reads tails. -/

structure XmlElem where
  tag : PyStr
  attrs : List (PyStr × PyStr)
  text : Option PyStr
  children : List XmlElem

/-- `{uri}local` — ET's representation of a namespace-resolved tag. -/
def nsTag (uri loc : PyStr) : PyStr := 123 :: uri ++ 125 :: loc

def isWs (c : Nat) : Bool := c == 32 || c == 9 || c == 10 || c == 13

def skipWs (s : PyStr) : PyStr := s.dropWhile isWs

def isNameChar (c : Nat) : Bool :=
  (65 ≤ c && c ≤ 90) || (97 ≤ c && c ≤ 122) || (48 ≤ c && c ≤ 57) ||
    c == 58 || c == 95 || c == 45 || c == 46

/-- Split a qualified name at its first `:` into prefix and local part. -/
def splitPrefix (name : PyStr) : Option (PyStr × PyStr) :=
  let p := name.takeWhile (fun c => c != 58)
  if p.length = name.length then none else some (p, name.drop (p.length + 1))

/-- Resolve an element tag against the in-scope namespace declarations
(innermost first); an unbound prefix is a parse error (as in ET). -/
def resolveTag (env : List (PyStr × PyStr)) (name : PyStr) : Option PyStr :=
  match splitPrefix name with
  | some (p, l) => (env.lookup p).map (fun uri => nsTag uri l)
  | none =>
    match env.lookup [] with
    | some uri => if uri = [] then some name else some (nsTag uri name)
    | none => some name

/-- Is this attribute a namespace declaration (`xmlns` or `xmlns:p`)? -/
def isXmlnsAttr (name : PyStr) : Bool :=
  name == pys "xmlns" ||
    (match splitPrefix name with
     | some (p, _) => p == pys "xmlns"
     | none => false)

/-- The namespace bindings declared by an attribute list. -/
def nsDecls (attrs : List (PyStr × PyStr)) : List (PyStr × PyStr) :=
  attrs.filterMap (fun nv =>
    if nv.1 = pys "xmlns" then some (([] : PyStr), nv.2)
    else
      match splitPrefix nv.1 with
      | some (p, l) => if p = pys "xmlns" then some (l, nv.2) else none
      | none => none)

/-- Resolve a non-declaration attribute name (unprefixed names stay as
written; prefixed names become `{uri}local`). -/
def resolveAttrName (env : List (PyStr × PyStr)) (name : PyStr) : Option PyStr :=
  match splitPrefix name with
  | some (p, l) => (env.lookup p).map (fun uri => nsTag uri l)
  | none => some name

def resolveAttrs (env : List (PyStr × PyStr)) :
    List (PyStr × PyStr) → Option (List (PyStr × PyStr))
  | [] => some []
  | nv :: rest =>
    match resolveAttrName env nv.1, resolveAttrs env rest with
    | some rn, some rs => some ((rn, nv.2) :: rs)
    | _, _ => none

/-- Parse the attribute region of a start tag, up to (not including) the
closing `>` or `/>`. -/
def parseAttrsAux : Nat → PyStr → List (PyStr × PyStr) → Option (List (PyStr × PyStr) × PyStr)
  | 0, _, _ => none
  | fuel + 1, s, acc =>
    let s1 := skipWs s
    match s1 with
    | 62 :: _ => some (acc.reverse, s1)
    | 47 :: 62 :: _ => some (acc.reverse, s1)
    | _ =>
      let name := s1.takeWhile isNameChar
      let r1 := s1.drop name.length
      if name = [] then none
      else
        match r1 with
        | 61 :: 34 :: r2 =>
          let v := r2.takeWhile (fun c => c != 34 && c != 60 && c != 38)
          match r2.drop v.length with
          | 34 :: r4 => parseAttrsAux fuel r4 ((name, v) :: acc)
          | _ => none
        | 61 :: 39 :: r2 =>
          let v := r2.takeWhile (fun c => c != 39 && c != 60 && c != 38)
          match r2.drop v.length with
          | 39 :: r4 => parseAttrsAux fuel r4 ((name, v) :: acc)
          | _ => none
        | _ => none

mutual

/-- Parse one element starting at `<`. -/
def parseElemAux : Nat → List (PyStr × PyStr) → PyStr → Option (XmlElem × PyStr)
  | 0, _, _ => none
  | fuel + 1, env, s =>
    match s with
    | 60 :: rest =>
      let name := rest.takeWhile isNameChar
      let r1 := rest.drop name.length
      if name = [] then none
      else
        match parseAttrsAux (fuel + 1) r1 [] with
        | none => none
        | some (rawAttrs, r2) =>
          let env' := nsDecls rawAttrs ++ env
          match resolveTag env' name,
              resolveAttrs env' (rawAttrs.filter (fun nv => !isXmlnsAttr nv.1)) with
          | some rtag, some attrs =>
            (match r2 with
             | 47 :: 62 :: r3 => some (⟨rtag, attrs, none, []⟩, r3)
             | 62 :: r3 =>
               match parseContentAux fuel env' r3 with
               | none => none
               | some (txt, children, r4) =>
                 let cname := r4.takeWhile isNameChar
                 let r5 := r4.drop cname.length
                 if cname = name then
                   match skipWs r5 with
                   | 62 :: r6 => some (⟨rtag, attrs, txt, children⟩, r6)
                   | _ => none
                 else none
             | _ => none)
          | _, _ => none
    | _ => none

/-- Parse element content up to and including the closing `</`; returns
the text before the first child, the children, and the input after the
`</`. -/
def parseContentAux : Nat → List (PyStr × PyStr) → PyStr →
    Option (Option PyStr × List XmlElem × PyStr)
  | 0, _, _ => none
  | fuel + 1, env, s =>
    let txt := s.takeWhile (fun c => c != 60 && c != 38)
    let r1 := s.drop txt.length
    match r1 with
    | 60 :: 47 :: r2 => some ((if txt = [] then none else some txt), [], r2)
    | 60 :: _ =>
      match parseElemAux fuel env r1 with
      | none => none
      | some (child, r2) =>
        match parseContentAux fuel env r2 with
        | none => none
        | some (_, siblings, r3) =>
          some ((if txt = [] then none else some txt), child :: siblings, r3)
    | _ => none

end

/-- Model of `ElementTree.fromstring`: whitespace around the single root
element is allowed, anything else after it is an error. -/
def xmlParse (s : PyStr) : Option XmlElem :=
  match parseElemAux (s.length + 2) [] (skipWs s) with
  | some (root, rest) => if skipWs rest = [] then some root else none
  | none => none

/-- Depth-first document-order search of the strict descendants for the
first element with the given (resolved) tag — `root.find('.//tag')`.
The fuel is a node budget; callers pass the source text's length, which
always dominates the node count of a parsed document. -/
def findDescAux (t : PyStr) : Nat → List XmlElem → Option XmlElem
  | 0, _ => none
  | _ + 1, [] => none
  | fuel + 1, e :: rest =>
    if e.tag = t then some e else findDescAux t fuel (e.children ++ rest)

/-- All strict descendants with the given tag, in document order —
`root.findall('.//tag')`. -/
def collectDescAux (t : PyStr) : Nat → List XmlElem → List XmlElem
  | 0, _ => []
  | _ + 1, [] => []
  | fuel + 1, e :: rest =>
    (if e.tag = t then [e] else []) ++ collectDescAux t fuel (e.children ++ rest)

/-- `e.findall('./tag')`. -/
def childrenTag (e : XmlElem) (t : PyStr) : List XmlElem :=
  e.children.filter (fun c => c.tag == t)

/-- `e.find('./tag')`. -/
def findChildTag (e : XmlElem) (t : PyStr) : Option XmlElem :=
  e.children.find? (fun c => c.tag == t)

/-- `e.attrib[k]` as an optional lookup. -/
def attrGet (e : XmlElem) (k : PyStr) : Option PyStr := e.attrs.lookup k

/-! ## A regex engine for the concrete patterns the source uses

The library's `re.search` calls use only literals, `.+` (greedy), and
one `.*?`/capture-group combination, all under `re.DOTALL`.  `reMatch`
implements Python's backtracking semantics for exactly these elements:
ordered alternatives, greedy quantifiers try longest first, lazy ones
shortest first; `reSearch` tries start positions left to right. -/

inductive RElem where
  /-- a literal string -/
  | lit (l : PyStr)
  /-- `.+` with DOTALL (greedy) -/
  | dotPlus
  /-- `.*?` with DOTALL (lazy) -/
  | dotStarLazy
  /-- `(.+)` with DOTALL (greedy), the single capture group -/
  | grpPlus

def firstSome {β : Type} : List Nat → (Nat → Option β) → Option β
  | [], _ => none
  | i :: rest, f =>
    match f i with
    | some r => some r
    | none => firstSome rest f

/-- Candidate consumption lengths for `.+`: greedy tries n, n-1, ..., 1. -/
def greedyLens (n : Nat) : List Nat := (List.range n).map (fun k => n - k)

/-- Candidate consumption lengths for `.*?`: lazy tries 0, 1, ..., n. -/
def lazyLens (n : Nat) : List Nat := List.range (n + 1)

/-- Match a pattern against a prefix of `s`; returns the consumed length
and the capture of the group (if the pattern contains one). -/
def reMatch : List RElem → PyStr → Option (Nat × Option PyStr)
  | [], _ => some (0, none)
  | .lit l :: ps, s =>
    if l.isPrefixOf s then
      (reMatch ps (s.drop l.length)).map (fun r => (l.length + r.1, r.2))
    else none
  | .dotPlus :: ps, s =>
    firstSome (greedyLens s.length) (fun i =>
      (reMatch ps (s.drop i)).map (fun r => (i + r.1, r.2)))
  | .dotStarLazy :: ps, s =>
    firstSome (lazyLens s.length) (fun i =>
      (reMatch ps (s.drop i)).map (fun r => (i + r.1, r.2)))
  | .grpPlus :: ps, s =>
    firstSome (greedyLens s.length) (fun i =>
      (reMatch ps (s.drop i)).map (fun r => (i + r.1, some (s.take i))))

/-- `re.search`: the leftmost start position with a match wins; returns
(start, length, group 1). -/
def reSearch (p : List RElem) (s : PyStr) : Option (Nat × Nat × Option PyStr) :=
  firstSome (lazyLens s.length) (fun st =>
    (reMatch p (s.drop st)).map (fun r => (st, r.1, r.2)))

/-- `'<SOAP-ENV:Envelope.+</SOAP-ENV:Envelope>'` with `re.DOTALL`. -/
def envelopePattern : List RElem :=
  [.lit (pys "<SOAP-ENV:Envelope"), .dotPlus, .lit (pys "</SOAP-ENV:Envelope>")]

/-- `envelope.group(0)` of the envelope search: the matched substring. -/
def envelopeSearch (text : PyStr) : Option PyStr :=
  (reSearch envelopePattern text).map (fun r => (text.drop r.1).take r.2.1)

/-- Substring containment (`needle in haystack`). -/
def containsSub (needle hay : PyStr) : Bool :=
  (lazyLens hay.length).any (fun i => needle.isPrefixOf (hay.drop i))

theorem containsSub_of_append (needle pre post : PyStr) :
    containsSub needle (pre ++ needle ++ post) = true := by
  unfold containsSub
  rw [List.any_eq_true]
  refine ⟨pre.length, ?_, ?_⟩
  · simp only [lazyLens, List.mem_range, List.length_append]
    omega
  · rw [List.append_assoc, List.drop_left]
    exact List.isPrefixOf_iff_prefix.mpr (List.prefix_append needle post)

/-! ## `soap_request` response processing (claim C5)

`xrdinfo-src/xrdinfo/__init__.py` lines 290-304: after the HTTP exchange,
search the raw response text for the SOAP envelope (ignoring MIME
parts), parse it, and raise `SoapFaultError(faultstring.text)` if a
fault element is present anywhere in the parsed document. -/

/-- `root.find('.//faultstring')` followed by `.text`, with the node
budget taken from the searched document's source text. -/
def faultStringOf (fuel : Nat) (root : XmlElem) : Option (Option PyStr) :=
  (findDescAux (pys "faultstring") fuel root.children).map (fun e => e.text)

/-- The message `SoapFaultError.__init__` stores: `f'SoapFault: {msg}'`,
where a `None` fault text prints as `None`. -/
def soapFaultMessage (txt : Option PyStr) : PyStr :=
  match txt with
  | some t => pys "SoapFault: " ++ t
  | none => pys "SoapFault: None"

/-- The post-HTTP part of `soap_request`: envelope extraction via the
greedy regex, `ElementTree.fromstring`, fault detection.  Returns the
parsed root, or the exception the function raises. -/
def soapRequestProcess (text : PyStr) : Except PyExc XmlElem :=
  match envelopeSearch text with
  | none => .error (.xrdError (pys "SOAP envelope was not found in response"))
  | some seg =>
    match xmlParse seg with
    | none => .error (.xrdError (pys "Received incorrect SOAP response"))
    | some root =>
      match faultStringOf seg.length root with
      | some txt => .error (.soapFault (soapFaultMessage txt))
      | none => .ok root

/-- C5 (amended): whenever the substring from the first envelope open
tag to the last envelope close tag parses as an XML document whose first
faultstring descendant carries text `t`, `soap_request` fails with a
`SoapFaultError` whose message contains `t` — regardless of any
surrounding multipart content.  (If that substring does not parse — for
instance when the surrounding content contains a further envelope close
tag — a generic parse error without the fault text is raised instead,
as the counterexample shows.) -/
theorem C5_fault_surfacing (text seg : PyStr) (root : XmlElem) (t : PyStr)
    (hseg : envelopeSearch text = some seg)
    (hparse : xmlParse seg = some root)
    (hfault : faultStringOf seg.length root = some (some t)) :
    soapRequestProcess text = .error (.soapFault (pys "SoapFault: " ++ t)) ∧
      containsSub t (PyExc.message (.soapFault (pys "SoapFault: " ++ t))) = true := by
  constructor
  · unfold soapRequestProcess
    rw [hseg]
    show (match xmlParse seg with
      | none => Except.error (PyExc.xrdError (pys "Received incorrect SOAP response"))
      | some root =>
        match faultStringOf seg.length root with
        | some txt => Except.error (PyExc.soapFault (soapFaultMessage txt))
        | none => Except.ok root) = _
    rw [hparse]
    show (match faultStringOf seg.length root with
      | some txt => Except.error (PyExc.soapFault (soapFaultMessage txt))
      | none => Except.ok root) = _
    rw [hfault]
    rfl
  · show containsSub t (pys "SoapFault: " ++ t) = true
    have := containsSub_of_append t (pys "SoapFault: ") []
    simpa using this

/-- A well-formed fault envelope with fault text `Foo`. -/
def envdocC5 : PyStr :=
  pys "<SOAP-ENV:Envelope xmlns:SOAP-ENV=\"http://schemas.xmlsoap.org/soap/envelope/\">" ++
    pys "<SOAP-ENV:Body><SOAP-ENV:Fault><faultcode>c</faultcode>" ++
    pys "<faultstring>Foo</faultstring></SOAP-ENV:Fault></SOAP-ENV:Body></SOAP-ENV:Envelope>"

/-- A multipart response carrying `envdocC5` surrounded by MIME content. -/
def c5text : PyStr :=
  pys "--boundary\r\ncontent-type:text/xml\r\n\r\n" ++ envdocC5 ++ pys "\r\n--boundary--"

def c5root : XmlElem := (xmlParse envdocC5).getD ⟨[], [], none, []⟩

/-- C5 witness: the amended claim applied to a concrete multipart
response containing the fault envelope. -/
theorem C5_fault_surfacing_witness :
    soapRequestProcess c5text = .error (.soapFault (pys "SoapFault: " ++ pys "Foo")) ∧
      containsSub (pys "Foo")
        (PyExc.message (.soapFault (pys "SoapFault: " ++ pys "Foo"))) = true :=
  C5_fault_surfacing c5text envdocC5 c5root (pys "Foo") rfl rfl rfl

/-- C5 counterexample: the same fault envelope (fault text `Foo`)
followed by surrounding content that happens to contain one more
envelope close tag.  The greedy envelope regex of `soap_request` then
spans up to the LAST close tag, `ElementTree.fromstring` fails on the
trailing junk, and the call raises the generic
`XrdInfoError('Received incorrect SOAP response')`, whose message does
NOT contain `Foo` — refuting the claim for arbitrary surrounding
content. -/
theorem C5_fault_surfacing_counterexample :
    xmlParse envdocC5 = some c5root ∧
      faultStringOf envdocC5.length c5root = some (some (pys "Foo")) ∧
      soapRequestProcess (envdocC5 ++ pys "x</SOAP-ENV:Envelope>") =
        .error (.xrdError (pys "Received incorrect SOAP response")) ∧
      containsSub (pys "Foo")
        (PyExc.message (.xrdError (pys "Received incorrect SOAP response"))) = false :=
  ⟨rfl, rfl, rfl, by decide⟩

/-! ## `wsdl()` response processing (claim C8)

The multipart-extraction regex shared by both versions of `wsdl()`:
`'--xroad.+content-type:text/xml.+<SOAP-ENV:Envelope.+</SOAP-ENV:Envelope>`
`.+--xroad.+content-type:text/xml.*?\r\n\r\n(.+)\r\n--xroad.+'` with
`re.DOTALL`. -/

def monsterPattern : List RElem :=
  [.lit (pys "--xroad"), .dotPlus, .lit (pys "content-type:text/xml"), .dotPlus,
   .lit (pys "<SOAP-ENV:Envelope"), .dotPlus, .lit (pys "</SOAP-ENV:Envelope>"), .dotPlus,
   .lit (pys "--xroad"), .dotPlus, .lit (pys "content-type:text/xml"), .dotStarLazy,
   .lit (pys "\r\n\r\n"), .grpPlus, .lit (pys "\r\n--xroad"), .dotPlus]

/-- `group(1)` of the multipart WSDL regex, when it matches. -/
def wsdlMultipartSearch (text : PyStr) : Option PyStr :=
  match reSearch monsterPattern text with
  | some (_, _, some g) => some g
  | _ => none

/-- `wsdl()` of the current library (`xrdinfo-src/xrdinfo/__init__.py`
lines 700-708): `soap_request` first (which raises `SoapFaultError` if
the parsed envelope carries a fault), then the multipart extraction;
a failed extraction raises `XrdInfoError('WSDL not found')`. -/
def wsdlPipeline (text : PyStr) : Except PyExc PyStr :=
  match soapRequestProcess text with
  | .error e => .error e
  | .ok _ =>
    match wsdlMultipartSearch text with
    | some g => .ok g
    | none => .error (.xrdError (pys "WSDL not found"))

/-- `raise XrdInfoError(e)` as performed by the legacy module's blanket
`except Exception` handlers: an `XrdInfoError` subclass keeps its message
but is re-raised as the base class; a builtin exception is wrapped with
its type name (`f'{type(e).__name__}: {e}'`; the builtin's own detail
text is not modelled). -/
def wrapXrd (e : PyExc) : PyExc := .xrdError e.message

/-- The legacy `wsdl()` post-processing (`xrdinfo/xrdinfo.py` lines
500-521 with its `except` clauses): if a multipart part is extracted and
that part itself contains an envelope, the envelope is parsed and a
fault is surfaced — but when that envelope carries NO faultstring the
function falls off the `if` and returns `None` (`Except.ok none`):
no document and no exception. -/
def wsdlLegacyProcess (text : PyStr) : Except PyExc (Option PyStr) :=
  match wsdlMultipartSearch text with
  | some g =>
    match envelopeSearch g with
    | some seg =>
      match xmlParse seg with
      | none => .error (wrapXrd .parseError)
      | some root =>
        match faultStringOf seg.length root with
        | some txt => .error (wrapXrd (.soapFault (soapFaultMessage txt)))
        | none => .ok none
    | none => .ok (some g)
  | none =>
    match envelopeSearch text with
    | none => .error (wrapXrd .attributeError)
    | some seg =>
      match xmlParse seg with
      | none => .error (wrapXrd .parseError)
      | some root =>
        match faultStringOf seg.length root with
        | some txt => .error (wrapXrd (.soapFault (soapFaultMessage txt)))
        | none => .error (wrapXrd (.xrdError (pys "WSDL not found")))

/-- C8 (amended): `wsdl()` of the current library either returns the
multipart-extracted description text or raises: a fault in the parsed
envelope raises `SoapFaultError` (whether or not extraction would
succeed), any other `soap_request` failure propagates, and a fault-free
envelope with failed extraction raises `XrdInfoError('WSDL not found')`.
The legacy copy violates the exhaustiveness: it can return `None` with
no document and no exception (see the counterexample). -/
theorem C8_wsdl_exhaustive (text : PyStr) :
    (∀ e, soapRequestProcess text = .error e → wsdlPipeline text = .error e) ∧
      (∀ root, soapRequestProcess text = .ok root →
        (∀ g, wsdlMultipartSearch text = some g → wsdlPipeline text = .ok g) ∧
          (wsdlMultipartSearch text = none →
            wsdlPipeline text = .error (.xrdError (pys "WSDL not found")))) := by
  constructor
  · intro e he
    unfold wsdlPipeline
    rw [he]
  · intro root hroot
    constructor
    · intro g hg
      unfold wsdlPipeline
      rw [hroot]
      show (match wsdlMultipartSearch text with
        | some g => Except.ok g
        | none => Except.error (PyExc.xrdError (pys "WSDL not found"))) = _
      rw [hg]
    · intro hg
      unfold wsdlPipeline
      rw [hroot]
      show (match wsdlMultipartSearch text with
        | some g => Except.ok g
        | none => Except.error (PyExc.xrdError (pys "WSDL not found"))) = _
      rw [hg]

/-- A multipart getWsdl response: fault-free envelope part, then a
description part whose body is `WSDLDOC`. -/
def t8wit : PyStr :=
  pys "--xroad\ncontent-type:text/xml\n" ++
    pys "<SOAP-ENV:Envelope xmlns:SOAP-ENV=\"u\">ok</SOAP-ENV:Envelope>\n" ++
    pys "--xroad\ncontent-type:text/xml\r\n\r\nWSDLDOC\r\n--xroadZ"

def t8root : XmlElem := (xmlParse ((envelopeSearch t8wit).getD [])).getD ⟨[], [], none, []⟩

/-- C8 witness: on a concrete well-formed multipart response the current
`wsdl()` returns exactly the extracted description part. -/
theorem C8_wsdl_exhaustive_witness : wsdlPipeline t8wit = .ok (pys "WSDLDOC") :=
  ((C8_wsdl_exhaustive t8wit).2 t8root rfl).1 (pys "WSDLDOC") rfl

/-- C8 counterexample: a multipart response whose extracted description
part contains a fault-FREE envelope.  The legacy `wsdl()`
(`xrdinfo/xrdinfo.py`) parses that envelope, finds no faultstring, falls
off the end of the function and returns `None`: it returns without a
document and without raising, refuting the claim for that cited source. -/
theorem C8_wsdl_exhaustive_counterexample :
    wsdlLegacyProcess
        (pys "--xroad\ncontent-type:text/xml\n" ++
          pys "<SOAP-ENV:Envelope xmlns:SOAP-ENV=\"u\">B</SOAP-ENV:Envelope>\n" ++
          pys "--xroad\ncontent-type:text/xml\r\n\r\n" ++
          pys "<SOAP-ENV:Envelope xmlns:SOAP-ENV=\"u\">C</SOAP-ENV:Envelope>\r\n--xroadZ") =
      .ok none := rfl

/-! ## `registered_subsystems` (claim C6)

The registration filter of `xrdinfo-src/xrdinfo/__init__.py` lines
469-491 (the legacy copy has identical logic), modelled over the parsed
shared-params document.  `<client>` elements are modelled as leaves
carrying the referenced identifier in their text, matching the ET path
predicate `[client="id"]` (which compares the complete text content). -/

/-- `_fail_none(elem.find(path).text)`: the element must exist and carry
text. -/
def reqText (o : Option XmlElem) : Except PyExc PyStr :=
  match o with
  | none => .error (.xrdError (pys "Unexpected None value"))
  | some e =>
    match e.text with
    | some t => .ok t
    | none => .error (.xrdError (pys "Unexpected None value"))

/-- `elem.find('./t1/t2')`: first grandchild on the two-step path, in
document order. -/
def findPath2 (e : XmlElem) (t1 t2 : PyStr) : Option XmlElem :=
  ((childrenTag e t1).flatMap (fun c => childrenTag c t2)).head?

/-- `subsystem.attrib['id']` (KeyError when absent, then `_fail_none`). -/
def exAttr (e : XmlElem) (k : PyStr) : Except PyExc PyStr :=
  match attrGet e k with
  | some v => .ok v
  | none => .error .keyError

/-- `_security_servers(root, client_id)`:
`root.findall(f'./securityServer[client="{client_id}"]')` — with the
source's `if client_id:` guard, under which a FALSY (empty) client id
returns every securityServer unfiltered. -/
def securityServersWithClient (root : XmlElem) (cid : PyStr) : List XmlElem :=
  if cid = [] then childrenTag root (pys "securityServer")
  else
    (childrenTag root (pys "securityServer")).filter
      (fun sv => (childrenTag sv (pys "client")).any (fun c => c.text == some cid))

/-- Sequential effectful flat-map: the generator's nested loops, where
the first failure aborts the iteration. -/
def exFlatMap {α β : Type} : List α → (α → Except PyExc (List β)) → Except PyExc (List β)
  | [], _ => .ok []
  | a :: rest, f =>
    match f a with
    | .error e => .error e
    | .ok bs =>
      match exFlatMap rest f with
      | .error e => .error e
      | .ok bs2 => .ok (bs ++ bs2)

/-- The body of the inner subsystem loop of `registered_subsystems`:
read the internal id and the subsystem code, yield the row iff some
security server references the id. -/
def subsystemEntry (root : XmlElem) (inst mc mcode : PyStr) (sub : XmlElem) :
    Except PyExc (List (PyStr × PyStr × PyStr × PyStr)) :=
  match exAttr sub (pys "id") with
  | .error e => .error e
  | .ok sid =>
    match reqText (findChildTag sub (pys "subsystemCode")) with
    | .error e => .error e
    | .ok scode =>
      if (securityServersWithClient root sid).isEmpty then .ok []
      else .ok [(inst, mc, mcode, scode)]

/-- The body of the member loop of `registered_subsystems`. -/
def memberEntries (root : XmlElem) (inst : PyStr) (member : XmlElem) :
    Except PyExc (List (PyStr × PyStr × PyStr × PyStr)) :=
  match reqText (findPath2 member (pys "memberClass") (pys "code")) with
  | .error e => .error e
  | .ok mc =>
    match reqText (findChildTag member (pys "memberCode")) with
    | .error e => .error e
    | .ok mcode =>
      exFlatMap (childrenTag member (pys "subsystem")) (subsystemEntry root inst mc mcode)

/-- `registered_subsystems(shared_params)` over the parsed document:
yield each subsystem row whose internal id is referenced by some
security server's client relation. -/
def registered_subsystems (root : XmlElem) :
    Except PyExc (List (PyStr × PyStr × PyStr × PyStr)) :=
  match reqText (findChildTag root (pys "instanceIdentifier")) with
  | .error e => .error e
  | .ok inst => exFlatMap (childrenTag root (pys "member")) (memberEntries root inst)

/-- The row the iteration builds for one subsystem element (same reads,
same order, without the registration filter). -/
def subsystemRowOf (root member sub : XmlElem) :
    Except PyExc (PyStr × PyStr × PyStr × PyStr) :=
  match reqText (findChildTag root (pys "instanceIdentifier")) with
  | .error e => .error e
  | .ok inst =>
    match reqText (findPath2 member (pys "memberClass") (pys "code")) with
    | .error e => .error e
    | .ok mc =>
      match reqText (findChildTag member (pys "memberCode")) with
      | .error e => .error e
      | .ok mcode =>
        match exAttr sub (pys "id") with
        | .error e => .error e
        | .ok _ =>
          match reqText (findChildTag sub (pys "subsystemCode")) with
          | .error e => .error e
          | .ok scode => .ok (inst, mc, mcode, scode)

theorem registered_subsystems_err (root : XmlElem) (e : PyExc)
    (hinst : reqText (findChildTag root (pys "instanceIdentifier")) = .error e) :
    registered_subsystems root = .error e := by
  unfold registered_subsystems
  rw [hinst]

theorem registered_subsystems_eq (root : XmlElem) (inst : PyStr)
    (hinst : reqText (findChildTag root (pys "instanceIdentifier")) = .ok inst) :
    registered_subsystems root =
      exFlatMap (childrenTag root (pys "member")) (memberEntries root inst) := by
  unfold registered_subsystems
  rw [hinst]

theorem memberEntries_err1 (root : XmlElem) (inst : PyStr) (member : XmlElem) (e : PyExc)
    (hmc : reqText (findPath2 member (pys "memberClass") (pys "code")) = .error e) :
    memberEntries root inst member = .error e := by
  unfold memberEntries
  rw [hmc]

theorem memberEntries_err2 (root : XmlElem) (inst : PyStr) (member : XmlElem) (mc : PyStr)
    (e : PyExc)
    (hmc : reqText (findPath2 member (pys "memberClass") (pys "code")) = .ok mc)
    (hmcode : reqText (findChildTag member (pys "memberCode")) = .error e) :
    memberEntries root inst member = .error e := by
  unfold memberEntries
  rw [hmc]
  show (match reqText (findChildTag member (pys "memberCode")) with
    | Except.error e => Except.error e
    | Except.ok mcode =>
      exFlatMap (childrenTag member (pys "subsystem")) (subsystemEntry root inst mc mcode)) = _
  rw [hmcode]

theorem memberEntries_eq (root : XmlElem) (inst : PyStr) (member : XmlElem) (mc mcode : PyStr)
    (hmc : reqText (findPath2 member (pys "memberClass") (pys "code")) = .ok mc)
    (hmcode : reqText (findChildTag member (pys "memberCode")) = .ok mcode) :
    memberEntries root inst member =
      exFlatMap (childrenTag member (pys "subsystem")) (subsystemEntry root inst mc mcode) := by
  unfold memberEntries
  rw [hmc]
  show (match reqText (findChildTag member (pys "memberCode")) with
    | Except.error e => Except.error e
    | Except.ok mcode =>
      exFlatMap (childrenTag member (pys "subsystem")) (subsystemEntry root inst mc mcode)) = _
  rw [hmcode]

theorem subsystemEntry_err1 (root : XmlElem) (inst mc mcode : PyStr) (sub : XmlElem) (e : PyExc)
    (hsid : exAttr sub (pys "id") = .error e) :
    subsystemEntry root inst mc mcode sub = .error e := by
  unfold subsystemEntry
  rw [hsid]

theorem subsystemEntry_err2 (root : XmlElem) (inst mc mcode : PyStr) (sub : XmlElem)
    (sid : PyStr) (e : PyExc)
    (hsid : exAttr sub (pys "id") = .ok sid)
    (hscode : reqText (findChildTag sub (pys "subsystemCode")) = .error e) :
    subsystemEntry root inst mc mcode sub = .error e := by
  unfold subsystemEntry
  rw [hsid]
  show (match reqText (findChildTag sub (pys "subsystemCode")) with
    | Except.error e => Except.error e
    | Except.ok scode =>
      if (securityServersWithClient root sid).isEmpty then Except.ok []
      else Except.ok [(inst, mc, mcode, scode)]) = _
  rw [hscode]

theorem subsystemEntry_eq (root : XmlElem) (inst mc mcode : PyStr) (sub : XmlElem)
    (sid scode : PyStr)
    (hsid : exAttr sub (pys "id") = .ok sid)
    (hscode : reqText (findChildTag sub (pys "subsystemCode")) = .ok scode) :
    subsystemEntry root inst mc mcode sub =
      (if (securityServersWithClient root sid).isEmpty then .ok []
       else .ok [(inst, mc, mcode, scode)]) := by
  unfold subsystemEntry
  rw [hsid]
  show (match reqText (findChildTag sub (pys "subsystemCode")) with
    | Except.error e => Except.error e
    | Except.ok scode =>
      if (securityServersWithClient root sid).isEmpty then Except.ok []
      else Except.ok [(inst, mc, mcode, scode)]) = _
  rw [hscode]

theorem exFlatMap_ok_mem {α β : Type} (as : List α) (f : α → Except PyExc (List β))
    (res : List β) (h : exFlatMap as f = .ok res) (b : β) :
    b ∈ res ↔ ∃ a ∈ as, ∃ bs, f a = .ok bs ∧ b ∈ bs := by
  induction as generalizing res with
  | nil =>
    unfold exFlatMap at h
    cases h
    simp
  | cons a rest ih =>
    unfold exFlatMap at h
    cases hfa : f a with
    | error e => rw [hfa] at h; simp only [] at h; cases h
    | ok bs =>
    rw [hfa] at h
    simp only [] at h
    cases hrest : exFlatMap rest f with
    | error e => rw [hrest] at h; simp only [] at h; cases h
    | ok bs2 =>
    rw [hrest] at h
    simp only [] at h
    have hres : bs ++ bs2 = res := Except.ok.inj h
    subst hres
    constructor
    · intro hb
      rcases List.mem_append.mp hb with hb1 | hb2
      · exact ⟨a, List.mem_cons_self a rest, bs, hfa, hb1⟩
      · rcases (ih bs2 hrest).mp hb2 with ⟨a2, ha2, bs3, hfa3, hb3⟩
        exact ⟨a2, List.mem_cons_of_mem a ha2, bs3, hfa3, hb3⟩
    · rintro ⟨a2, ha2, bs3, hfa3, hb3⟩
      rw [List.mem_cons] at ha2
      rcases ha2 with rfl | ha2
      · rw [hfa] at hfa3
        cases Except.ok.inj hfa3
        exact List.mem_append_left _ hb3
      · exact List.mem_append_right _ ((ih bs2 hrest).mpr ⟨a2, ha2, bs3, hfa3, hb3⟩)

theorem exFlatMap_ok_forall {α β : Type} (as : List α) (f : α → Except PyExc (List β))
    (res : List β) (h : exFlatMap as f = .ok res) :
    ∀ a ∈ as, ∃ bs, f a = .ok bs := by
  induction as generalizing res with
  | nil => intro a ha; cases ha
  | cons a rest ih =>
    intro a2 ha2
    unfold exFlatMap at h
    cases hfa : f a with
    | error e => rw [hfa] at h; simp only [] at h; cases h
    | ok bs =>
    rw [hfa] at h
    simp only [] at h
    cases hrest : exFlatMap rest f with
    | error e => rw [hrest] at h; simp only [] at h; cases h
    | ok bs2 =>
    rw [List.mem_cons] at ha2
    rcases ha2 with rfl | ha2
    · exact ⟨bs, hfa⟩
    · exact ih bs2 hrest a2 ha2

theorem subsystemRowOf_inv (root m s : XmlElem) (row : PyStr × PyStr × PyStr × PyStr)
    (h : subsystemRowOf root m s = .ok row) :
    ∃ inst mc mcode sid scode,
      reqText (findChildTag root (pys "instanceIdentifier")) = .ok inst ∧
        reqText (findPath2 m (pys "memberClass") (pys "code")) = .ok mc ∧
        reqText (findChildTag m (pys "memberCode")) = .ok mcode ∧
        exAttr s (pys "id") = .ok sid ∧
        reqText (findChildTag s (pys "subsystemCode")) = .ok scode ∧
        row = (inst, mc, mcode, scode) := by
  unfold subsystemRowOf at h
  cases hinst : reqText (findChildTag root (pys "instanceIdentifier")) with
  | error e => rw [hinst] at h; simp only [] at h; cases h
  | ok inst =>
  rw [hinst] at h
  simp only [] at h
  cases hmc : reqText (findPath2 m (pys "memberClass") (pys "code")) with
  | error e => rw [hmc] at h; simp only [] at h; cases h
  | ok mc =>
  rw [hmc] at h
  simp only [] at h
  cases hmcode : reqText (findChildTag m (pys "memberCode")) with
  | error e => rw [hmcode] at h; simp only [] at h; cases h
  | ok mcode =>
  rw [hmcode] at h
  simp only [] at h
  cases hsid : exAttr s (pys "id") with
  | error e => rw [hsid] at h; simp only [] at h; cases h
  | ok sid =>
  rw [hsid] at h
  simp only [] at h
  cases hscode : reqText (findChildTag s (pys "subsystemCode")) with
  | error e => rw [hscode] at h; simp only [] at h; cases h
  | ok scode =>
  rw [hscode] at h
  simp only [] at h
  exact ⟨inst, mc, mcode, sid, scode, rfl, rfl, rfl, rfl, rfl, (Except.ok.inj h).symm⟩

theorem subsystemRowOf_build (root m s : XmlElem) (inst mc mcode sid scode : PyStr)
    (hinst : reqText (findChildTag root (pys "instanceIdentifier")) = .ok inst)
    (hmc : reqText (findPath2 m (pys "memberClass") (pys "code")) = .ok mc)
    (hmcode : reqText (findChildTag m (pys "memberCode")) = .ok mcode)
    (hsid : exAttr s (pys "id") = .ok sid)
    (hscode : reqText (findChildTag s (pys "subsystemCode")) = .ok scode) :
    subsystemRowOf root m s = .ok (inst, mc, mcode, scode) := by
  unfold subsystemRowOf
  rw [hinst]
  simp only []
  rw [hmc]
  simp only []
  rw [hmcode]
  simp only []
  rw [hsid]
  simp only []
  rw [hscode]

/-- The registration test, as the claim states it: some securityServer
element references `sid` as a client. -/
theorem securityServersWithClient_ne_nil (root : XmlElem) (sid : PyStr) (hne : sid ≠ []) :
    ¬(securityServersWithClient root sid).isEmpty = true ↔
      ∃ sv ∈ childrenTag root (pys "securityServer"),
        ∃ c ∈ childrenTag sv (pys "client"), c.text = some sid := by
  unfold securityServersWithClient
  rw [if_neg hne, List.isEmpty_iff]
  constructor
  · intro hnil
    rcases List.exists_mem_of_ne_nil _ hnil with ⟨sv, hsv⟩
    have hf := List.mem_filter.mp hsv
    rcases List.any_eq_true.mp hf.2 with ⟨c, hc, hctext⟩
    exact ⟨sv, hf.1, c, hc, by rwa [beq_iff_eq] at hctext⟩
  · rintro ⟨sv, hsv, c, hc, hctext⟩ hnil
    have : sv ∈ (childrenTag root (pys "securityServer")).filter
        (fun sv => (childrenTag sv (pys "client")).any (fun c => c.text == some sid)) := by
      rw [List.mem_filter]
      exact ⟨hsv, List.any_eq_true.mpr ⟨c, hc, by rw [beq_iff_eq]; exact hctext⟩⟩
    rw [hnil] at this
    simp at this

/-- C6: a subsystem row is yielded by `registered_subsystems` iff some
securityServer element of the document references that subsystem's
internal id as a client.  (`hid` excludes empty internal ids, for which
the source's `if client_id:` guard would skip the filter; shared-params
subsystem ids are non-empty identifiers.) -/
theorem C6_registered_subsystems (root : XmlElem)
    (res : List (PyStr × PyStr × PyStr × PyStr))
    (h : registered_subsystems root = .ok res)
    (hid : ∀ m ∈ childrenTag root (pys "member"), ∀ s ∈ childrenTag m (pys "subsystem"),
      attrGet s (pys "id") ≠ some []) :
    ∀ row, row ∈ res ↔
      ∃ m ∈ childrenTag root (pys "member"), ∃ s ∈ childrenTag m (pys "subsystem"),
        ∃ sid, attrGet s (pys "id") = some sid ∧
          subsystemRowOf root m s = .ok row ∧
          ∃ sv ∈ childrenTag root (pys "securityServer"),
            ∃ c ∈ childrenTag sv (pys "client"), c.text = some sid := by
  intro row
  cases hinst : reqText (findChildTag root (pys "instanceIdentifier")) with
  | error e => rw [registered_subsystems_err root e hinst] at h; cases h
  | ok inst =>
  rw [registered_subsystems_eq root inst hinst] at h
  rw [exFlatMap_ok_mem _ _ _ h row]
  constructor
  · rintro ⟨m, hm, bs, hFm, hrowbs⟩
    refine ⟨m, hm, ?_⟩
    cases hmc : reqText (findPath2 m (pys "memberClass") (pys "code")) with
    | error e => rw [memberEntries_err1 root inst m e hmc] at hFm; cases hFm
    | ok mc =>
    cases hmcode : reqText (findChildTag m (pys "memberCode")) with
    | error e => rw [memberEntries_err2 root inst m mc e hmc hmcode] at hFm; cases hFm
    | ok mcode =>
    rw [memberEntries_eq root inst m mc mcode hmc hmcode] at hFm
    rw [exFlatMap_ok_mem _ _ _ hFm row] at hrowbs
    rcases hrowbs with ⟨s, hs, bs2, hGs, hrow2⟩
    refine ⟨s, hs, ?_⟩
    cases hsid : exAttr s (pys "id") with
    | error e => rw [subsystemEntry_err1 root inst mc mcode s e hsid] at hGs; cases hGs
    | ok sid =>
    cases hscode : reqText (findChildTag s (pys "subsystemCode")) with
    | error e =>
      rw [subsystemEntry_err2 root inst mc mcode s sid e hsid hscode] at hGs
      cases hGs
    | ok scode =>
    rw [subsystemEntry_eq root inst mc mcode s sid scode hsid hscode] at hGs
    by_cases hemp : (securityServersWithClient root sid).isEmpty = true
    · rw [if_pos hemp] at hGs
      cases hGs
      simp at hrow2
    · rw [if_neg hemp] at hGs
      cases hGs
      rw [List.mem_singleton] at hrow2
      subst hrow2
      have hsid' : attrGet s (pys "id") = some sid := by
        unfold exAttr at hsid
        cases ha : attrGet s (pys "id") with
        | none => rw [ha] at hsid; cases hsid
        | some v => rw [ha] at hsid; cases hsid; rfl
      have hne : sid ≠ [] := fun he => hid m hm s hs (he ▸ hsid')
      exact ⟨sid, hsid',
        subsystemRowOf_build root m s inst mc mcode sid scode hinst hmc hmcode hsid hscode,
        (securityServersWithClient_ne_nil root sid hne).mp hemp⟩
  · rintro ⟨m, hm, s, hs, sid, hsid, hrowOf, sv, hsv, c, hc, hctext⟩
    rcases subsystemRowOf_inv root m s row hrowOf with
      ⟨inst', mc, mcode, sid', scode, hinst', hmc, hmcode, hsid2, hscode, hroweq⟩
    rw [hinst] at hinst'
    cases hinst'
    have hsidv : sid' = sid := by
      unfold exAttr at hsid2
      rw [hsid] at hsid2
      simp only [] at hsid2
      exact (Except.ok.inj hsid2).symm
    rw [hsidv] at hsid2
    have hne : sid ≠ [] := fun he => hid m hm s hs (he ▸ hsid)
    have hnotemp : ¬(securityServersWithClient root sid).isEmpty = true :=
      (securityServersWithClient_ne_nil root sid hne).mpr ⟨sv, hsv, c, hc, hctext⟩
    refine ⟨m, hm, ?_⟩
    obtain ⟨bs, hFm⟩ := exFlatMap_ok_forall _ _ _ h m hm
    refine ⟨bs, hFm, ?_⟩
    rw [memberEntries_eq root inst m mc mcode hmc hmcode] at hFm
    rw [exFlatMap_ok_mem _ _ _ hFm row]
    obtain ⟨bs2, hGs⟩ := exFlatMap_ok_forall _ _ _ hFm s hs
    refine ⟨s, hs, bs2, hGs, ?_⟩
    rw [subsystemEntry_eq root inst mc mcode s sid scode hsid2 hscode, if_neg hnotemp] at hGs
    cases hGs
    rw [hroweq]
    simp

/-- A concrete shared-params document: one member with two subsystems,
ids S1 (referenced by the security server's client) and S2 (not
referenced). -/
def c6doc : XmlElem :=
  { tag := pys "conf", attrs := [], text := none, children :=
    [ { tag := pys "instanceIdentifier", attrs := [], text := some (pys "DEV"), children := [] },
      { tag := pys "member", attrs := [], text := none, children :=
        [ { tag := pys "memberClass", attrs := [], text := none, children :=
            [ { tag := pys "code", attrs := [], text := some (pys "GOV"), children := [] } ] },
          { tag := pys "memberCode", attrs := [], text := some (pys "100"), children := [] },
          { tag := pys "subsystem", attrs := [(pys "id", pys "S1")], text := none, children :=
            [ { tag := pys "subsystemCode", attrs := [], text := some (pys "reg"),
                children := [] } ] },
          { tag := pys "subsystem", attrs := [(pys "id", pys "S2")], text := none, children :=
            [ { tag := pys "subsystemCode", attrs := [], text := some (pys "unreg"),
                children := [] } ] } ] },
      { tag := pys "securityServer", attrs := [], text := none, children :=
        [ { tag := pys "client", attrs := [], text := some (pys "S1"), children := [] } ] } ] }

theorem C6_registered_subsystems_witness :
    (pys "DEV", pys "GOV", pys "100", pys "reg") ∈
        [(pys "DEV", pys "GOV", pys "100", pys "reg")] ↔
      ∃ m ∈ childrenTag c6doc (pys "member"), ∃ s ∈ childrenTag m (pys "subsystem"),
        ∃ sid, attrGet s (pys "id") = some sid ∧
          subsystemRowOf c6doc m s = .ok (pys "DEV", pys "GOV", pys "100", pys "reg") ∧
          ∃ sv ∈ childrenTag c6doc (pys "securityServer"),
            ∃ c ∈ childrenTag sv (pys "client"), c.text = some sid :=
  C6_registered_subsystems c6doc [(pys "DEV", pys "GOV", pys "100", pys "reg")] rfl
    (by decide) (pys "DEV", pys "GOV", pys "100", pys "reg")

/-- A document whose only subsystem has an EMPTY internal id and whose
only security server has no client relations at all. -/
def c6docEmpty : XmlElem :=
  { tag := pys "conf", attrs := [], text := none, children :=
    [ { tag := pys "instanceIdentifier", attrs := [], text := some (pys "DEV"), children := [] },
      { tag := pys "member", attrs := [], text := none, children :=
        [ { tag := pys "memberClass", attrs := [], text := none, children :=
            [ { tag := pys "code", attrs := [], text := some (pys "GOV"), children := [] } ] },
          { tag := pys "memberCode", attrs := [], text := some (pys "100"), children := [] },
          { tag := pys "subsystem", attrs := [(pys "id", [])], text := none, children :=
            [ { tag := pys "subsystemCode", attrs := [], text := some (pys "sub"),
                children := [] } ] } ] },
      { tag := pys "securityServer", attrs := [], text := none, children := [] } ] }

theorem C6_registered_subsystems_counterexample :
    registered_subsystems c6docEmpty = .ok [(pys "DEV", pys "GOV", pys "100", pys "sub")] ∧
      (childrenTag c6docEmpty (pys "securityServer")).map
        (fun sv => childrenTag sv (pys "client")) = [[]] :=
  ⟨rfl, rfl⟩

/-! ## The `xrd_all_wsdls.py` worker loop and report (C4, C7)

A subsystem or method identifier is its tuple of string parts;
`stringify` is `u"/".join(list)`.  `method_index` is a Python dict,
modelled as an insertion-ordered association list with update-in-place
semantics (`dictSet`).  Network effects are an oracle: each method of
the per-subsystem loop is paired with the outcome its `xrdinfo.wsdl`
call would have if it were attempted, and the state records which
methods were actually attempted (`attempts`) and which files were
written (`files`). -/

def stringify (parts : List PyStr) : PyStr := pyJoin 47 parts

/-- Python dict assignment `d[k] = v`: overwrite in place, else append. -/
def dictSet {β : Type} : List (PyStr × β) → PyStr → β → List (PyStr × β)
  | [], k, v => [(k, v)]
  | (k2, v2) :: rest, k, v =>
    if k2 = k then (k2, v) :: rest else (k2, v2) :: dictSet rest k v

/-- The outcome the `xrdinfo.wsdl` call would have for one method. -/
inductive FetchOut
  | timeout
  | err
  | ok (doc : PyStr)

def nsWsdlUri : PyStr := pys "http://schemas.xmlsoap.org/wsdl/"

def nsXrdUri : PyStr := pys "http://x-road.eu/xsd/xroad.xsd"

/-- `root.findall('.//wsdl:binding/wsdl:operation', NS)`. -/
def wsdlOperations (fuel : Nat) (root : XmlElem) : List XmlElem :=
  (collectDescAux (nsTag nsWsdlUri (pys "binding")) fuel root.children).flatMap
    (fun b => childrenTag b (nsTag nsWsdlUri (pys "operation")))

/-- The generator body of `wsdl_methods`: for each operation take
`./xrd:version` text (empty string when the element is absent) and
yield `(name, version)` when the `name` attribute exists.  A present
`<xrd:version>` element with no text stores `None`, and `'' + None`
raises at the yield: the flag records the abort, and only the pairs
yielded before it are returned. -/
def opsLoop : List XmlElem → List (PyStr × PyStr) × Bool
  | [] => ([], false)
  | op :: rest =>
    let version :=
      match findChildTag op (nsTag nsXrdUri (pys "version")) with
      | some v => v.text
      | none => some []
    match attrGet op (pys "name") with
    | some nm =>
      match version with
      | none => ([], true)
      | some ver =>
        match opsLoop rest with
        | (tail, f) => ((nm, ver) :: tail, f)
    | none => opsLoop rest

/-- `xrdinfo.wsdl_methods(wsdl_doc)` as consumed by the worker's `for`
loop: the yielded `(name, version)` pairs, and whether the generator
raised `XrdInfoError` (parse failure, or `TypeError` mid-iteration). -/
def wsdl_methods (doc : PyStr) : List (PyStr × PyStr) × Bool :=
  match xmlParse doc with
  | none => ([], true)
  | some root => opsLoop (wsdlOperations doc.length root)

/-- Per-subsystem worker state across the method loop. -/
structure WorkSt where
  files : List (PyStr × List Nat)
  hashes : List (PyStr × PyStr)
  index : List (PyStr × PyStr)
  skip : Bool
  attempts : List PyStr

/-- One iteration of the worker's method loop (`xrd_all_wsdls.worker`,
lines 146-192): dedup check first, then the skip flag, then the fetch —
timeout marks `TIMEOUT` and sets the skip flag, an error marks `''`,
success saves the document and indexes every method its WSDL declares
under `rel_path/file`, marking the fetched method `''` if the generator
aborts mid-iteration. -/
def workStep (sub : List PyStr) (relPath : PyStr) (st : WorkSt)
    (m : List PyStr) (out : FetchOut) : WorkSt :=
  let key := stringify m
  match st.index.lookup key with
  | some _ => st
  | none =>
    if st.skip then { st with index := dictSet st.index key (pys "SKIPPED") }
    else
      match out with
      | .timeout =>
        { st with
          skip := true
          index := dictSet st.index key (pys "TIMEOUT")
          attempts := st.attempts ++ [key] }
      | .err =>
        { st with
          index := dictSet st.index key []
          attempts := st.attempts ++ [key] }
      | .ok doc =>
        let sres := save_wsdl st.hashes doc
        let files2 :=
          match sres.written with
          | some fw => st.files ++ [fw]
          | none => st.files
        let parsed := wsdl_methods doc
        let idx1 := parsed.1.foldl
          (fun d op => dictSet d (stringify (sub ++ [op.1, op.2])) (relPath ++ 47 :: sres.name))
          st.index
        let idx2 := if parsed.2 then dictSet idx1 key [] else idx1
        { files := files2
          hashes := sres.hashes
          index := idx2
          skip := st.skip
          attempts := st.attempts ++ [key] }

/-- The worker's loop over the sorted method list. -/
def processMethods (sub : List PyStr) (relPath : PyStr) (st : WorkSt) :
    List (List PyStr × FetchOut) → WorkSt
  | [] => st
  | (m, out) :: rest => processMethods sub relPath (workStep sub relPath st m out) rest

theorem dictSet_lookup_self {β : Type} (d : List (PyStr × β)) (k : PyStr) (v : β) :
    (dictSet d k v).lookup k = some v := by
  induction d with
  | nil => simp [dictSet, List.lookup]
  | cons kv rest ih =>
    obtain ⟨k2, v2⟩ := kv
    by_cases h : k2 = k
    · subst h
      simp [dictSet, List.lookup]
    · simp only [dictSet, if_neg h, List.lookup]
      rw [show (k == k2) = false from beq_eq_false_iff_ne.mpr (Ne.symm h)]
      exact ih

theorem dictSet_lookup_ne {β : Type} (d : List (PyStr × β)) (k k2 : PyStr) (v : β)
    (h : k2 ≠ k) : (dictSet d k v).lookup k2 = d.lookup k2 := by
  induction d with
  | nil =>
    simp only [dictSet, List.lookup]
    rw [show (k2 == k) = false from beq_eq_false_iff_ne.mpr h]
  | cons kv rest ih =>
    obtain ⟨k3, v3⟩ := kv
    by_cases h3 : k3 = k
    · subst h3
      simp only [dictSet, if_pos rfl, List.lookup]
      rw [show (k2 == k3) = false from beq_eq_false_iff_ne.mpr h]
    · simp only [dictSet, if_neg h3, List.lookup]
      cases hbe : k2 == k3 with
      | true => rfl
      | false => exact ih

theorem processMethods_append (sub : List PyStr) (relPath : PyStr) (st : WorkSt)
    (l1 l2 : List (List PyStr × FetchOut)) :
    processMethods sub relPath st (l1 ++ l2) =
      processMethods sub relPath (processMethods sub relPath st l1) l2 := by
  induction l1 generalizing st with
  | nil => rfl
  | cons p rest ih =>
    obtain ⟨m, out⟩ := p
    rw [List.cons_append]
    show processMethods sub relPath (workStep sub relPath st m out) (rest ++ l2) = _
    exact ih (workStep sub relPath st m out)

/-- Once the skip flag is set, the rest of the method loop attempts no
fetch, writes no file, preserves every existing index entry, and maps
each remaining method to its pre-existing entry — or to `'SKIPPED'`
when it has none. -/
theorem processMethods_skip (sub : List PyStr) (relPath : PyStr)
    (l : List (List PyStr × FetchOut)) (st : WorkSt) (hskip : st.skip = true) :
    (processMethods sub relPath st l).skip = true ∧
    (processMethods sub relPath st l).attempts = st.attempts ∧
    (processMethods sub relPath st l).files = st.files ∧
    (∀ k v, st.index.lookup k = some v →
      (processMethods sub relPath st l).index.lookup k = some v) ∧
    (∀ m out, (m, out) ∈ l →
      (processMethods sub relPath st l).index.lookup (stringify m) =
        some ((st.index.lookup (stringify m)).getD (pys "SKIPPED"))) := by
  induction l generalizing st with
  | nil =>
    refine ⟨hskip, rfl, rfl, fun k v h => h, ?_⟩
    intro m out hm
    cases hm
  | cons p rest ih =>
    obtain ⟨m, out⟩ := p
    have hred : processMethods sub relPath st ((m, out) :: rest) =
        processMethods sub relPath (workStep sub relPath st m out) rest := rfl
    rw [hred]
    cases hl : st.index.lookup (stringify m) with
    | some v0 =>
      have hw : workStep sub relPath st m out = st := by
        simp only [workStep]
        rw [hl]
      rw [hw]
      obtain ⟨c1, c2, c3, c4, c5⟩ := ih st hskip
      refine ⟨c1, c2, c3, c4, ?_⟩
      intro m2 out2 hm2
      rw [List.mem_cons] at hm2
      rcases hm2 with heq | hm2
      · cases heq
        rw [hl]
        exact c4 (stringify m) v0 hl
      · exact c5 m2 out2 hm2
    | none =>
      have hw : workStep sub relPath st m out =
          { st with index := dictSet st.index (stringify m) (pys "SKIPPED") } := by
        simp only [workStep]
        rw [hl]
        rw [hskip]
        rfl
      rw [hw]
      obtain ⟨c1, c2, c3, c4, c5⟩ :=
        ih { st with index := dictSet st.index (stringify m) (pys "SKIPPED") } hskip
      refine ⟨c1, c2, c3, ?_, ?_⟩
      · intro k v hk
        refine c4 k v ?_
        have hne : k ≠ stringify m := by
          intro he
          rw [he, hl] at hk
          cases hk
        show (dictSet st.index (stringify m) (pys "SKIPPED")).lookup k = some v
        rw [dictSet_lookup_ne _ _ _ _ hne]
        exact hk
      · intro m2 out2 hm2
        rw [List.mem_cons] at hm2
        rcases hm2 with heq | hm2
        · cases heq
          rw [hl]
          exact c4 (stringify m) (pys "SKIPPED") (dictSet_lookup_self _ _ _)
        · by_cases hkey : stringify m2 = stringify m
          · rw [hkey, hl]
            have := c5 m2 out2 hm2
            rw [show ({ st with index := dictSet st.index (stringify m) (pys "SKIPPED") } :
                WorkSt).index = dictSet st.index (stringify m) (pys "SKIPPED") from rfl] at this
            rw [hkey, dictSet_lookup_self] at this
            exact this
          · have := c5 m2 out2 hm2
            rw [show ({ st with index := dictSet st.index (stringify m) (pys "SKIPPED") } :
                WorkSt).index = dictSet st.index (stringify m) (pys "SKIPPED") from rfl] at this
            rw [dictSet_lookup_ne _ _ _ _ hkey] at this
            exact this

theorem workStep_timeout (sub : List PyStr) (relPath : PyStr) (st : WorkSt) (m : List PyStr)
    (hl : st.index.lookup (stringify m) = none) (hskip : st.skip = false) :
    workStep sub relPath st m .timeout =
      { st with
        skip := true
        index := dictSet st.index (stringify m) (pys "TIMEOUT")
        attempts := st.attempts ++ [stringify m] } := by
  simp only [workStep]
  rw [hl]
  rw [hskip]
  rfl

/-- C4: in the worker's sorted method loop, when a method's document
fetch times out (the loop having reached it with the skip flag clear
and its key not yet indexed), that method is marked `TIMEOUT`, it is
the last fetch attempted, no further file is written, and every later
method's final index entry is its entry at the moment of the timeout
when it had one — and `SKIPPED` otherwise.  In particular a later
method already indexed from an earlier WSDL keeps that entry and is
NOT marked `SKIPPED`, and no later method's fresh key is ever marked
`TIMEOUT`. -/
theorem C4_circuit_breaker (sub : List PyStr) (relPath : PyStr) (st0 st1 : WorkSt)
    (pre post : List (List PyStr × FetchOut)) (mt : List PyStr)
    (h1 : processMethods sub relPath st0 pre = st1)
    (hskip : st1.skip = false)
    (hmem : st1.index.lookup (stringify mt) = none) :
    (processMethods sub relPath st0 (pre ++ (mt, .timeout) :: post)).attempts =
        st1.attempts ++ [stringify mt] ∧
    (processMethods sub relPath st0 (pre ++ (mt, .timeout) :: post)).files = st1.files ∧
    (processMethods sub relPath st0 (pre ++ (mt, .timeout) :: post)).index.lookup
        (stringify mt) = some (pys "TIMEOUT") ∧
    ∀ m out, (m, out) ∈ post →
      (processMethods sub relPath st0 (pre ++ (mt, .timeout) :: post)).index.lookup
          (stringify m) =
        some (((dictSet st1.index (stringify mt) (pys "TIMEOUT")).lookup
          (stringify m)).getD (pys "SKIPPED")) := by
  rw [processMethods_append, h1]
  have hred : processMethods sub relPath st1 ((mt, .timeout) :: post) =
      processMethods sub relPath (workStep sub relPath st1 mt .timeout) post := rfl
  rw [hred, workStep_timeout sub relPath st1 mt hmem hskip]
  obtain ⟨c1, c2, c3, c4, c5⟩ := processMethods_skip sub relPath post
    { st1 with
      skip := true
      index := dictSet st1.index (stringify mt) (pys "TIMEOUT")
      attempts := st1.attempts ++ [stringify mt] } rfl
  exact ⟨c2, c3, c4 (stringify mt) (pys "TIMEOUT") (dictSet_lookup_self _ _ _),
    fun m out hm => c5 m out hm⟩

def c4sub : List PyStr := [pys "I", pys "C", pys "M", pys "S"]

def c4rel : PyStr := stringify c4sub

/-- A WSDL document declaring operations `a` and `c`, both version
`v1`. -/
def c4doc : PyStr := pys "<wsdl:definitions xmlns:wsdl=\"http://schemas.xmlsoap.org/wsdl/\" xmlns:xrd=\"http://x-road.eu/xsd/xroad.xsd\"><wsdl:binding><wsdl:operation name=\"a\"><xrd:version>v1</xrd:version></wsdl:operation><wsdl:operation name=\"c\"><xrd:version>v1</xrd:version></wsdl:operation></wsdl:binding></wsdl:definitions>"

def c4A : List PyStr := c4sub ++ [pys "a", pys "v1"]

def c4B : List PyStr := c4sub ++ [pys "b", pys "v1"]

def c4C : List PyStr := c4sub ++ [pys "c", pys "v1"]

def c4st0 : WorkSt := ⟨[], [], [], false, []⟩

theorem C4_circuit_breaker_witness :
    (processMethods c4sub c4rel c4st0
        ([] ++ (c4B, FetchOut.timeout) :: [(c4C, FetchOut.err)])).index.lookup
        (stringify c4C) =
      some (((dictSet c4st0.index (stringify c4B) (pys "TIMEOUT")).lookup
        (stringify c4C)).getD (pys "SKIPPED")) :=
  (C4_circuit_breaker c4sub c4rel c4st0 c4st0 [] [(c4C, FetchOut.err)] c4B rfl rfl rfl).2.2.2
    c4C FetchOut.err (List.mem_singleton.mpr rfl)

theorem C4_circuit_breaker_counterexample :
    (processMethods c4sub c4rel c4st0
        [(c4A, .ok c4doc), (c4B, .timeout), (c4C, .err)]).index.lookup (stringify c4C) =
      some (pys "I/C/M/S/0.wsdl") ∧
    pys "I/C/M/S/0.wsdl" ≠ pys "SKIPPED" ∧
    (processMethods c4sub c4rel c4st0
        [(c4A, .ok c4doc), (c4B, .timeout), (c4C, .err)]).attempts =
      [stringify c4A, stringify c4B] :=
  ⟨rfl, by decide, rfl⟩

/-! ## The crawl and its report (C7)

One queued subsystem is processed under `try/except`: when the
discovery call (`sorted(xrdinfo.methods(...))`) raises, the handlers
record `{'methods': {}, 'ok': False}`; otherwise the method loop runs
and `{'methods': method_index, 'ok': True}` is recorded.  Either way
the worker stores a result and moves on — the model is a total
function, the except-clauses having no other effect. -/

def runSubsystem (sub : List PyStr)
    (disc : Except PyExc (List (List PyStr × FetchOut))) :
    List (PyStr × PyStr) × Bool :=
  match disc with
  | .error _ => ([], false)
  | .ok ms => ((processMethods sub (stringify sub) ⟨[], [], [], false, []⟩ ms).index, true)

/-- The whole crawl: every queued subsystem's result is stored in the
shared `results` dict under its stringified identifier. -/
def crawl (l : List (List PyStr × Except PyExc (List (List PyStr × FetchOut)))) :
    List (PyStr × (List (PyStr × PyStr) × Bool)) :=
  l.foldl (fun acc p => dictSet acc (stringify p.1) (runSubsystem p.1 p.2)) []

/-- `main`'s per-subsystem status: `ok` when the entry is ok with a
non-empty method dict, `empty` when ok, else `error`. -/
def subsystemStatus (entry : List (PyStr × PyStr) × Bool) : PyStr :=
  if entry.2 = true ∧ 0 < entry.1.length then pys "ok"
  else if entry.2 = true then pys "empty"
  else pys "error"

/-- The JSON report's `subsystemStatus`: `'ERROR' if subsystem_status
== 'error' else 'OK'`. -/
def jsonStatus (entry : List (PyStr × PyStr) × Bool) : PyStr :=
  if subsystemStatus entry = pys "error" then pys "ERROR" else pys "OK"

theorem crawl_foldl_preserve (l : List (List PyStr × Except PyExc (List (List PyStr × FetchOut))))
    (acc : List (PyStr × (List (PyStr × PyStr) × Bool))) (k : PyStr)
    (h : k ∉ l.map (fun p => stringify p.1)) :
    (l.foldl (fun acc p => dictSet acc (stringify p.1) (runSubsystem p.1 p.2)) acc).lookup k =
      acc.lookup k := by
  induction l generalizing acc with
  | nil => rfl
  | cons p rest ih =>
    rw [List.map_cons, List.mem_cons] at h
    push_neg at h
    rw [List.foldl_cons, ih _ h.2, dictSet_lookup_ne _ _ _ _ h.1]

theorem crawl_lookup (l : List (List PyStr × Except PyExc (List (List PyStr × FetchOut))))
    (hdist : (l.map (fun p => stringify p.1)).Nodup)
    (sub : List PyStr) (disc : Except PyExc (List (List PyStr × FetchOut)))
    (hmem : (sub, disc) ∈ l) :
    (crawl l).lookup (stringify sub) = some (runSubsystem sub disc) := by
  unfold crawl
  suffices hgen : ∀ acc,
      (l.foldl (fun acc p => dictSet acc (stringify p.1) (runSubsystem p.1 p.2)) acc).lookup
        (stringify sub) = some (runSubsystem sub disc) from hgen []
  induction l with
  | nil => cases hmem
  | cons p rest ih =>
    intro acc
    rw [List.map_cons, List.nodup_cons] at hdist
    rw [List.mem_cons] at hmem
    rcases hmem with heq | hmem
    · subst heq
      rw [List.foldl_cons, crawl_foldl_preserve rest _ _ hdist.1, dictSet_lookup_self]
    · rw [List.foldl_cons]
      exact ih hdist.2 hmem _

/-- C7: with distinct subsystem identifiers, every queued subsystem —
failing or not — gets exactly its own entry in the results dict: the
report maps a subsystem whose discovery call raised to status `ERROR`,
and every subsystem whose crawl succeeded to status `OK`; no failure
removes another subsystem's entry or aborts the crawl (the model of
the worker body is a total function: the per-subsystem `except`
handlers convert every discovery failure into a recorded result). -/
theorem C7_partial_failure (l : List (List PyStr × Except PyExc (List (List PyStr × FetchOut))))
    (hdist : (l.map (fun p => stringify p.1)).Nodup) :
    ∀ sub disc, (sub, disc) ∈ l →
      (crawl l).lookup (stringify sub) = some (runSubsystem sub disc) ∧
      (∀ e, disc = .error e → jsonStatus (runSubsystem sub disc) = pys "ERROR") ∧
      (∀ ms, disc = .ok ms → jsonStatus (runSubsystem sub disc) = pys "OK") := by
  intro sub disc hmem
  refine ⟨crawl_lookup l hdist sub disc hmem, ?_, ?_⟩
  · rintro e rfl
    rfl
  · rintro ms rfl
    have hred : runSubsystem sub (Except.ok ms) =
        ((processMethods sub (stringify sub) ⟨[], [], [], false, []⟩ ms).index, true) := rfl
    have hs : subsystemStatus
          ((processMethods sub (stringify sub) ⟨[], [], [], false, []⟩ ms).index, true) =
            pys "ok" ∨
        subsystemStatus
          ((processMethods sub (stringify sub) ⟨[], [], [], false, []⟩ ms).index, true) =
            pys "empty" := by
      unfold subsystemStatus
      by_cases hlen :
          0 < (processMethods sub (stringify sub) ⟨[], [], [], false, []⟩ ms).index.length
      · left
        rw [if_pos ⟨rfl, hlen⟩]
      · right
        rw [if_neg (fun hc => hlen hc.2), if_pos rfl]
    unfold jsonStatus
    rcases hs with hs | hs
    · rw [hred, hs, if_neg (by decide)]
    · rw [hred, hs, if_neg (by decide)]

def c7sub1 : List PyStr := [pys "I", pys "C", pys "M1", pys "S1"]

def c7sub2 : List PyStr := [pys "I", pys "C", pys "M2", pys "S2"]

def c7sub3 : List PyStr := [pys "I", pys "C", pys "M3", pys "S3"]

/-- Three queued subsystems: one whose method loop runs (its only
method's fetch fails but is recorded), one whose discovery raises, one
with an empty method list. -/
def c7l : List (List PyStr × Except PyExc (List (List PyStr × FetchOut))) :=
  [(c7sub1, Except.ok [(c7sub1 ++ [pys "m", pys "v1"], FetchOut.err)]),
   (c7sub2, Except.error (PyExc.xrdError (pys "fail"))),
   (c7sub3, Except.ok [])]

theorem C7_partial_failure_witness :
    (crawl c7l).lookup (stringify c7sub2) =
      some (runSubsystem c7sub2 (Except.error (PyExc.xrdError (pys "fail")))) ∧
    jsonStatus (runSubsystem c7sub2 (Except.error (PyExc.xrdError (pys "fail")))) =
      pys "ERROR" :=
  ⟨(C7_partial_failure c7l (by decide) c7sub2 (Except.error (PyExc.xrdError (pys "fail")))
      (List.mem_cons_of_mem _ (List.mem_cons_self _ _))).1,
   (C7_partial_failure c7l (by decide) c7sub2 (Except.error (PyExc.xrdError (pys "fail")))
      (List.mem_cons_of_mem _ (List.mem_cons_self _ _))).2.1 _ rfl⟩
